import Mathlib

set_option maxHeartbeats 1000000

namespace HomeRs

/-- Error type from `src/error.rs`, extended with the texture-creation error
variants referenced by `src/core/gl_graphics.rs` (`InvalidTextureSize`,
`InvalidTextureFormat`, `GpuOutOfMemory`, `OpenGl`). -/
inductive Error where
  | EmptyPhotos
  | InvalidTextureSize
  | InvalidTextureFormat
  | GpuOutOfMemory
  | OpenGl (code : Nat)
  deriving DecidableEq

/-- Two-component vector from `src/v2d/v2.rs`; the f32 entries are modelled
as exact rationals. -/
structure V2 where
  x0 : ℚ
  x1 : ℚ
  deriving DecidableEq

instance : Add V2 := ⟨fun a b => ⟨a.x0 + b.x0, a.x1 + b.x1⟩⟩

/-- Rectangle from `src/scene/mod.rs`. -/
structure Rect where
  pos : V2
  size : V2
  deriving DecidableEq

/-- Photo placement from `src/scene/slideshow.rs` (`place_photo`): letterbox
vertically when the source aspect is wider than the destination aspect,
otherwise pillarbox horizontally. -/
def place_photo (src_aspect dst_aspect : ℚ) : Rect :=
  if src_aspect > dst_aspect then
    let scaled_height := dst_aspect / src_aspect
    let ofs_y := (1 - scaled_height) / 2
    { pos := ⟨0, ofs_y⟩, size := ⟨1, 1 * scaled_height⟩ }
  else
    let scaled_width := src_aspect / dst_aspect
    let ofs_x := (1 - scaled_width) / 2
    { pos := ⟨ofs_x, 0⟩, size := ⟨scaled_width, 1⟩ }

/-- Claim C6: for positive aspect ratios, `place_photo` returns a rectangle
inside the unit square that spans the full extent of the scaled-to-fit axis,
is centered on the other axis (letterbox when the source is relatively wider,
pillarbox otherwise), and the displayed aspect ratio reconstructed from the
returned size reproduces the source aspect ratio exactly. -/
theorem place_photo_correct (src dst : ℚ) (hs : 0 < src) (hd : 0 < dst) :
    (0 ≤ (place_photo src dst).pos.x0 ∧ 0 ≤ (place_photo src dst).pos.x1 ∧
      (place_photo src dst).pos.x0 + (place_photo src dst).size.x0 ≤ 1 ∧
      (place_photo src dst).pos.x1 + (place_photo src dst).size.x1 ≤ 1 ∧
      0 < (place_photo src dst).size.x0 ∧ 0 < (place_photo src dst).size.x1) ∧
    (src > dst →
      (place_photo src dst).size.x0 = 1 ∧ (place_photo src dst).pos.x0 = 0 ∧
      (place_photo src dst).pos.x1 = (1 - (place_photo src dst).size.x1) / 2) ∧
    (¬ src > dst →
      (place_photo src dst).size.x1 = 1 ∧ (place_photo src dst).pos.x1 = 0 ∧
      (place_photo src dst).pos.x0 = (1 - (place_photo src dst).size.x0) / 2) ∧
    (place_photo src dst).size.x0 * dst / (place_photo src dst).size.x1 = src := by
  have hs' : src ≠ 0 := ne_of_gt hs
  have hd' : dst ≠ 0 := ne_of_gt hd
  by_cases h : src > dst
  · have h01 : 0 < dst / src := div_pos hd hs
    have h1 : dst / src ≤ 1 := by
      rw [div_le_one hs]; exact le_of_lt h
    simp only [place_photo, if_pos h]
    refine ⟨⟨by linarith, by linarith, by linarith, by linarith, by linarith, by linarith⟩,
      fun _ => by norm_num, fun hc => absurd h hc, ?_⟩
    field_simp
  · have hle : src ≤ dst := le_of_not_lt h
    have h01 : 0 < src / dst := div_pos hs hd
    have h1 : src / dst ≤ 1 := by
      rw [div_le_one hd]; exact hle
    simp only [place_photo, if_neg h]
    refine ⟨⟨by linarith, by linarith, by linarith, by linarith, by linarith, by linarith⟩,
      fun hc => absurd hc h, fun _ => by norm_num, ?_⟩
    field_simp

/-- Witness for `place_photo_correct` at src = 2, dst = 1. -/
theorem place_photo_correct_witness :
    (0 : ℚ) < 2 ∧ (0 : ℚ) < 1 ∧
    ((0 ≤ (place_photo 2 1).pos.x0 ∧ 0 ≤ (place_photo 2 1).pos.x1 ∧
      (place_photo 2 1).pos.x0 + (place_photo 2 1).size.x0 ≤ 1 ∧
      (place_photo 2 1).pos.x1 + (place_photo 2 1).size.x1 ≤ 1 ∧
      0 < (place_photo 2 1).size.x0 ∧ 0 < (place_photo 2 1).size.x1) ∧
    ((2 : ℚ) > 1 →
      (place_photo 2 1).size.x0 = 1 ∧ (place_photo 2 1).pos.x0 = 0 ∧
      (place_photo 2 1).pos.x1 = (1 - (place_photo 2 1).size.x1) / 2) ∧
    (¬ (2 : ℚ) > 1 →
      (place_photo 2 1).size.x1 = 1 ∧ (place_photo 2 1).pos.x1 = 0 ∧
      (place_photo 2 1).pos.x0 = (1 - (place_photo 2 1).size.x0) / 2) ∧
    (place_photo 2 1).size.x0 * 1 / (place_photo 2 1).size.x1 = 2) :=
  ⟨by norm_num, by norm_num, place_photo_correct 2 1 (by norm_num) (by norm_num)⟩

/-- Material from `src/core/gl_canvas.rs` (`GlMaterial`): solid color, single
texture, or three-plane luma/chroma texture set. -/
inductive GlMaterial where
  | Color (c : List ℚ)
  | Texture (id : Nat)
  | YuvTexture (id_luma id_cb id_cr : Nat)
  deriving DecidableEq

/-- GL device state for `src/core/gl_graphics.rs`: the device's maximum
texture size (as reported by `GetIntegerv(MAX_TEXTURE_SIZE)`), a fresh-name
counter for `GenTextures`, the names of currently allocated textures, and the
error `GetError` would report after a texture upload (`none` when uploads
succeed). -/
structure GlState where
  maxTextureSize : Int
  nextTex : Nat
  liveTex : List Nat
  glError : Option Error
  deriving DecidableEq

/-- Dimension validation from `src/core/gl_graphics.rs` (`check_texture_size`):
the `usize → i32` conversion fails above 2^31 − 1, then zero and
larger-than-max sizes are rejected, all with `Error::InvalidTextureSize`. -/
def check_texture_size (size : Nat) (max_size : Int) : Except Error Int :=
  if size > 2147483647 then .error .InvalidTextureSize
  else if size = 0 ∨ (size : Int) > max_size then .error .InvalidTextureSize
  else .ok size

/-- Texture creation from `src/core/gl_graphics.rs` (`create_texture`): checks
both dimensions, then the format table lookup (three entries), then generates
a texture name and uploads; when the upload reports a GL error the texture is
deleted again before the error is returned.  Returns the call's result
together with the GL state after the call. -/
def create_texture (st : GlState) (width height format : Nat) :
    Except Error Nat × GlState :=
  match check_texture_size width st.maxTextureSize with
  | .error e => (.error e, st)
  | .ok _ =>
    match check_texture_size height st.maxTextureSize with
    | .error e => (.error e, st)
    | .ok _ =>
      if format ≥ 3 then (.error .InvalidTextureFormat, st)
      else
        let texture := st.nextTex
        match st.glError with
        | some e => (.error e, { st with nextTex := texture + 1 })
        | none =>
          (.ok texture,
            { st with nextTex := texture + 1, liveTex := texture :: st.liveTex })

/-- YUV texture creation from `src/core/gl_canvas.rs` (`create_yuv_texture`):
creates the luma plane at full size, then the two chroma planes at half size
in each axis, propagating the first error. -/
def create_yuv_texture (st : GlState) (width height format : Nat) :
    Except Error GlMaterial × GlState :=
  match create_texture st width height format with
  | (.error e, st1) => (.error e, st1)
  | (.ok id_luma, st1) =>
    match create_texture st1 (width / 2) (height / 2) format with
    | (.error e, st2) => (.error e, st2)
    | (.ok id_cb, st2) =>
      match create_texture st2 (width / 2) (height / 2) format with
      | (.error e, st3) => (.error e, st3)
      | (.ok id_cr, st3) => (.ok (.YuvTexture id_luma id_cb id_cr), st3)

/-- Claim C2, counterexample: `create_yuv_texture` requested with width 1 and
height 2 (both nonzero and within the device maximum 4096) fails with the
size-validation error — the chroma plane's halved width is 0 — but the
already-created luma texture remains allocated, so a newly created GPU object
survives a failing texture-creation call. -/
theorem create_yuv_texture_leak_counterexample :
    (create_yuv_texture ⟨4096, 0, [], none⟩ 1 2 2).1 =
      Except.error Error.InvalidTextureSize ∧
    (create_yuv_texture ⟨4096, 0, [], none⟩ 1 2 2).2.liveTex = [0] :=
  ⟨rfl, rfl⟩

/-- Helper: a failing `check_texture_size` always reports
`InvalidTextureSize`. -/
theorem check_texture_size_bad (size : Nat) (m : Int)
    (hbad : size = 0 ∨ (size : Int) > m) :
    check_texture_size size m = .error .InvalidTextureSize := by
  unfold check_texture_size
  by_cases h1 : size > 2147483647
  · rw [if_pos h1]
  · rw [if_neg h1, if_pos hbad]

/-- Helper: `check_texture_size` either succeeds or reports
`InvalidTextureSize`. -/
theorem check_texture_size_cases (size : Nat) (m : Int) :
    check_texture_size size m = .error .InvalidTextureSize ∨
    ∃ v, check_texture_size size m = .ok v := by
  unfold check_texture_size
  split
  · exact Or.inl rfl
  · split
    · exact Or.inl rfl
    · exact Or.inr ⟨size, rfl⟩

/-- Claim C2, amended: a `create_texture` or `create_yuv_texture` call whose
requested width or height is zero or exceeds the device maximum returns the
distinguishable `InvalidTextureSize` error with the GL state unchanged (zero
new GPU objects), and a failing `create_texture` call never leaves a newly
created texture allocated; however a failing `create_yuv_texture` call can
leave an earlier-created plane allocated (see the counterexample). -/
theorem texture_size_validation_no_leak (st : GlState) (w h f : Nat)
    (hbad : w = 0 ∨ h = 0 ∨ (w : Int) > st.maxTextureSize ∨
      (h : Int) > st.maxTextureSize)
    (st2 : GlState) (w2 h2 f2 : Nat) (e2 : Error)
    (hfail : (create_texture st2 w2 h2 f2).1 = .error e2) :
    create_texture st w h f = (.error .InvalidTextureSize, st) ∧
    create_yuv_texture st w h f = (.error .InvalidTextureSize, st) ∧
    (create_texture st2 w2 h2 f2).2.liveTex = st2.liveTex := by
  have hct : create_texture st w h f = (.error .InvalidTextureSize, st) := by
    rcases hbad with hw | hb | hw | hb
    · have := check_texture_size_bad w st.maxTextureSize (Or.inl hw)
      simp [create_texture, this]
    · rcases check_texture_size_cases w st.maxTextureSize with hcw | ⟨v, hcw⟩
      · simp [create_texture, hcw]
      · have := check_texture_size_bad h st.maxTextureSize (Or.inl hb)
        simp [create_texture, hcw, this]
    · have := check_texture_size_bad w st.maxTextureSize (Or.inr hw)
      simp [create_texture, this]
    · rcases check_texture_size_cases w st.maxTextureSize with hcw | ⟨v, hcw⟩
      · simp [create_texture, hcw]
      · have := check_texture_size_bad h st.maxTextureSize (Or.inr hb)
        simp [create_texture, hcw, this]
  refine ⟨hct, ?_, ?_⟩
  · simp [create_yuv_texture, hct]
  · cases hcw : check_texture_size w2 st2.maxTextureSize with
    | error e1 => simp [create_texture, hcw]
    | ok vw =>
      cases hch : check_texture_size h2 st2.maxTextureSize with
      | error e1 => simp [create_texture, hcw, hch]
      | ok vh =>
        by_cases hf : f2 ≥ 3
        · simp [create_texture, hcw, hch, hf]
        · cases hge : st2.glError with
          | some e3 => simp [create_texture, hcw, hch, hf, hge]
          | none => simp [create_texture, hcw, hch, hf, hge] at hfail

/-- Witness for `texture_size_validation_no_leak`: width 0 on a device with
maximum texture size 4096. -/
theorem texture_size_validation_no_leak_witness :
    ((0 = 0 ∨ 1 = 0 ∨ ((0 : Nat) : Int) > (4096 : Int) ∨
        ((1 : Nat) : Int) > (4096 : Int)) ∧
      (create_texture ⟨4096, 0, [], none⟩ 0 1 0).1 =
        .error Error.InvalidTextureSize) ∧
    create_texture ⟨4096, 0, [], none⟩ 0 1 0 =
      (.error .InvalidTextureSize, ⟨4096, 0, [], none⟩) ∧
    create_yuv_texture ⟨4096, 0, [], none⟩ 0 1 0 =
      (.error .InvalidTextureSize, ⟨4096, 0, [], none⟩) ∧
    (create_texture ⟨4096, 0, [], none⟩ 0 1 0).2.liveTex =
      (⟨4096, 0, [], none⟩ : GlState).liveTex :=
  ⟨⟨by decide, rfl⟩,
    texture_size_validation_no_leak ⟨4096, 0, [], none⟩ 0 1 0 (by decide)
      ⟨4096, 0, [], none⟩ 0 1 0 Error.InvalidTextureSize rfl⟩

/-- Fixed-timestep loop state from `src/core/app_loop.rs` (`AppLoop`): the
configured update duration and the accumulated lag, in nanoseconds. -/
structure AppLoop where
  dt_update : Nat
  t_lag : Nat
  deriving DecidableEq

/-- Owed-updates count from `AppLoop::step`:
`(t_lag.as_nanos() / dt_update.as_nanos()) as u32 + 1` — the 128-bit quotient
is truncated to 32 bits by the cast, and the increment also wraps in 32-bit
arithmetic. -/
def updates_needed (lp : AppLoop) : Nat :=
  (lp.t_lag / lp.dt_update % 2 ^ 32 + 1) % 2 ^ 32

/-- The update loop of `AppLoop::step`: runs up to `n` `app.update` calls,
where `fail_at = some j` means the `j`-th call returns an error (the `?`
operator then aborts the loop).  Returns the number of calls executed and
whether all of them succeeded. -/
def run_updates (fail_at : Option Nat) : Nat → Nat × Bool
  | 0 => (0, true)
  | n + 1 =>
    match fail_at with
    | some 0 => (1, false)
    | some (j + 1) =>
      let r := run_updates (some j) n
      (r.1 + 1, r.2)
    | none =>
      let r := run_updates none n
      (r.1 + 1, r.2)

/-- One `AppLoop::step` from `src/core/app_loop.rs`, with the app abstracted
to a failure schedule (`fail_at` indexes the first failing `app.update` call,
if any) and the wall time the step takes measured as `dt_step` nanoseconds.
Returns the number of `app.update` calls executed, the number of
`app.render` calls executed, the loop state after the call, and whether the
step returned `Ok`. -/
def step (lp : AppLoop) (fail_at : Option Nat) (dt_step : Nat) :
    Nat × Nat × AppLoop × Bool :=
  let needed := updates_needed lp
  let r := run_updates fail_at (min needed 4)
  if r.2 then
    let t_lag1 := lp.t_lag + dt_step
    let t_lag2 := t_lag1 - lp.dt_update * needed
    (r.1, 1, { lp with t_lag := t_lag2 }, true)
  else
    (r.1, 0, lp, false)

/-- Claim C8, counterexample: with `dt_update` = 1 ns and an accumulated lag
of 2^32 ns (about 4.3 s), the owed-updates quotient is 2^32, which the
`as u32` cast truncates to 0; the step therefore executes exactly one update
call although the claimed formula `min(floor(t_lag / dt_update) + 1, 4)`
evaluates to 4. -/
theorem app_loop_step_count_counterexample :
    (step ⟨1, 2 ^ 32⟩ none 0).1 = 1 ∧ min (2 ^ 32 / 1 + 1) 4 = 4 :=
  ⟨rfl, by decide⟩

/-- Helper: with no failing update, the update loop executes exactly its
bound and succeeds. -/
theorem run_updates_none (n : Nat) : run_updates none n = (n, true) := by
  induction n with
  | zero => rfl
  | succ n ih => simp [run_updates, ih]

/-- Claim C8, amended: when every `app.update` call succeeds, one
`AppLoop::step` invocation executes exactly
`min((floor(t_lag / dt_update) mod 2^32 + 1) mod 2^32, 4)` update calls — the
owed count is computed in 32-bit arithmetic — followed by exactly one render
call; the count never exceeds four, and it is at least one whenever the
truncated quotient is not 2^32 − 1. -/
theorem app_loop_step_updates_renders (lp : AppLoop) (dt_step : Nat) :
    (step lp none dt_step).1 =
      min ((lp.t_lag / lp.dt_update % 2 ^ 32 + 1) % 2 ^ 32) 4 ∧
    (step lp none dt_step).2.1 = 1 ∧
    (step lp none dt_step).1 ≤ 4 ∧
    (lp.t_lag / lp.dt_update % 2 ^ 32 ≠ 2 ^ 32 - 1 →
      1 ≤ (step lp none dt_step).1) := by
  have hrun := run_updates_none (min (updates_needed lp) 4)
  have hstep : step lp none dt_step =
      (min (updates_needed lp) 4, 1,
        { lp with t_lag := lp.t_lag + dt_step - lp.dt_update * updates_needed lp },
        true) := by
    simp [step, hrun]
  rw [hstep]
  refine ⟨rfl, rfl, min_le_right _ _, fun hne => ?_⟩
  have hq : lp.t_lag / lp.dt_update % 2 ^ 32 < 2 ^ 32 :=
    Nat.mod_lt _ (by norm_num)
  have hlt : lp.t_lag / lp.dt_update % 2 ^ 32 + 1 < 2 ^ 32 := by
    omega
  have : updates_needed lp = lp.t_lag / lp.dt_update % 2 ^ 32 + 1 := by
    unfold updates_needed
    exact Nat.mod_eq_of_lt hlt
  simp only [this]
  omega

/-- Witness for `app_loop_step_updates_renders` at `dt_update` = 1 ns,
`t_lag` = 5 ns. -/
theorem app_loop_step_updates_renders_witness :
    (step ⟨1, 5⟩ none 0).1 = min ((5 / 1 % 2 ^ 32 + 1) % 2 ^ 32) 4 ∧
    (step ⟨1, 5⟩ none 0).2.1 = 1 ∧
    (step ⟨1, 5⟩ none 0).1 ≤ 4 ∧
    (5 / 1 % 2 ^ 32 ≠ 2 ^ 32 - 1 → 1 ≤ (step ⟨1, 5⟩ none 0).1) :=
  app_loop_step_updates_renders ⟨1, 5⟩ 0

/-- Vertex from `src/core/gl_canvas.rs`: position plus texture coordinate. -/
structure Vertex where
  pos : V2
  tex : V2
  deriving DecidableEq

/-- Mesh from `src/core/gl_canvas.rs` (`GlMesh`): vertex-array and buffer
names plus the vertex count. -/
structure GlMesh where
  vao : Nat
  vbo : Nat
  count : Nat
  deriving DecidableEq

/-- Four-by-four matrix from `src/v2d/m4x4.rs`, entries as rationals in
row-major order. -/
structure M4x4 where
  m : List ℚ
  deriving DecidableEq

/-- Draw instruction from `src/core/gl_canvas.rs` (`GlObject`). -/
structure GlObject where
  mesh_id : Nat
  pipeline_id : Nat
  material_id : Nat
  transform : M4x4
  deriving DecidableEq

/-- Transition draw instruction from `src/core/gl_canvas.rs`
(`GlTransition`). -/
structure GlTransition where
  mesh_id : Nat
  pipeline_id : Nat
  from_id : Nat
  to_id : Nat
  progress : ℚ
  from_pos : V2
  from_size : V2
  to_pos : V2
  to_size : V2
  deriving DecidableEq

/-- Resource pool from `src/core/gl_canvas.rs` (`Canvas`): the current draw
lists plus the canvas aspect ratio.  The GL device side is modelled by a
fresh-name counter for created textures/buffers and logs of the GL delete
calls issued through `delete_material` / `delete_mesh`. -/
structure Canvas where
  aspect_ratio : ℚ
  objects : List GlObject
  transitions : List GlTransition
  materials : List GlMaterial
  meshes : List GlMesh
  next_name : Nat
  deleted_materials : List GlMaterial
  deleted_meshes : List GlMesh
  deriving DecidableEq

/-- Draw-list swap from `src/core/gl_canvas.rs` (`Canvas::update`): replaces
the four draw-list arrays wholesale. -/
def Canvas.update (c : Canvas) (objects : List GlObject)
    (transitions : List GlTransition) (materials : List GlMaterial)
    (meshes : List GlMesh) : Canvas :=
  { c with objects := objects, transitions := transitions,
           materials := materials, meshes := meshes }

/-- Bounds-checked mesh lookup from `src/core/gl_canvas.rs`
(`Canvas::mesh`). -/
def Canvas.mesh (c : Canvas) (mesh_id : Nat) : Option GlMesh :=
  c.meshes.get? mesh_id

/-- YUV texture creation at the `Canvas` level as used by
`src/scene/layouter.rs` (which treats it as infallible): three fresh texture
names become one three-plane material. -/
def Canvas.create_yuv_texture (c : Canvas) (_width _height _format : Nat) :
    GlMaterial × Canvas :=
  (.YuvTexture c.next_name (c.next_name + 1) (c.next_name + 2),
    { c with next_name := c.next_name + 3 })

/-- Mesh creation from `src/core/gl_canvas.rs` (`create_mesh`): fresh
vertex-array and buffer names, vertex count from the uploaded slice. -/
def Canvas.create_mesh (c : Canvas) (verts : List Vertex) : GlMesh × Canvas :=
  (⟨c.next_name, c.next_name + 1, verts.length⟩,
    { c with next_name := c.next_name + 2 })

/-- Material deletion from `src/core/gl_canvas.rs` (`delete_material`): the
GL textures behind the material are deleted; the model logs the deleted
material. -/
def Canvas.delete_material (c : Canvas) (m : GlMaterial) : Canvas :=
  { c with deleted_materials := c.deleted_materials ++ [m] }

/-- Mesh deletion from `src/core/gl_canvas.rs` (`delete_mesh`): the GL
vertex array and buffer are deleted; the model logs the deleted mesh. -/
def Canvas.delete_mesh (c : Canvas) (m : GlMesh) : Canvas :=
  { c with deleted_meshes := c.deleted_meshes ++ [m] }

/-- Static-object pipelines registered by `Renderer::new` in
`src/core/gl_renderer.rs`: position-texture, YUV and MSDF, in that order. -/
inductive GlPipelineTag where
  | rgba
  | yuv
  | msdf
  deriving DecidableEq

/-- Transition pipelines registered by `Renderer::new`: only the dual-YUV
crossfade pipeline. -/
inductive GlTransitionTag where
  | yuv_dual
  deriving DecidableEq

def renderer_pipelines : List GlPipelineTag := [.rgba, .yuv, .msdf]

def renderer_transition_pipelines : List GlTransitionTag := [.yuv_dual]

/-- One draw call issued by the first render pass, with the looked-up
pipeline, mesh and material(s). -/
inductive DrawCall where
  | transition (pipe : GlTransitionTag) (mesh : GlMesh)
      (from_mat to_mat : GlMaterial) (progress : ℚ)
  | object (pipe : GlPipelineTag) (mesh : GlMesh) (material : GlMaterial)
  deriving DecidableEq

def DrawCall.isTransition : DrawCall → Bool
  | .transition .. => true
  | .object .. => false

/-- Lookup-and-dispatch for one transition record, as in the first loop of
`Renderer::render_1st_pass`: all four lookups must succeed, otherwise the
record is skipped (`continue`). -/
def dispatch_transition (c : Canvas) (t : GlTransition) : Option DrawCall :=
  match c.mesh t.mesh_id, renderer_transition_pipelines.get? t.pipeline_id,
      c.materials.get? t.from_id, c.materials.get? t.to_id with
  | some mesh, some pipe, some fm, some tm =>
    some (.transition pipe mesh fm tm t.progress)
  | _, _, _, _ => none

/-- Lookup-and-dispatch for one object record, as in the second loop of
`Renderer::render_1st_pass`. -/
def dispatch_object (c : Canvas) (o : GlObject) : Option DrawCall :=
  match c.mesh o.mesh_id, renderer_pipelines.get? o.pipeline_id,
      c.materials.get? o.material_id with
  | some mesh, some pipe, some material => some (.object pipe mesh material)
  | _, _, _ => none

/-- First render pass from `src/core/gl_renderer.rs` (`render_1st_pass`):
iterates all transitions, then all objects, skipping any record with a
missing mesh, pipeline or material, and returns the draw calls issued in
order. -/
def render_1st_pass (c : Canvas) : List DrawCall :=
  c.transitions.filterMap (dispatch_transition c) ++
    c.objects.filterMap (dispatch_object c)

def validTransition (c : Canvas) (t : GlTransition) : Bool :=
  (c.mesh t.mesh_id).isSome &&
    (renderer_transition_pipelines.get? t.pipeline_id).isSome &&
    (c.materials.get? t.from_id).isSome && (c.materials.get? t.to_id).isSome

def validObject (c : Canvas) (o : GlObject) : Bool :=
  (c.mesh o.mesh_id).isSome &&
    (renderer_pipelines.get? o.pipeline_id).isSome &&
    (c.materials.get? o.material_id).isSome

/-- Helper: filtering out the elements the dispatcher drops does not change
a `filterMap`. -/
theorem filterMap_filter_of_none {α β : Type} (f : α → Option β)
    (p : α → Bool) (l : List α) (h : ∀ x, p x = false → f x = none) :
    (l.filter p).filterMap f = l.filterMap f := by
  induction l with
  | nil => rfl
  | cons a l ih =>
    cases hp : p a with
    | true => simp [List.filter_cons, hp, List.filterMap_cons, ih]
    | false =>
      simp [List.filter_cons, hp, List.filterMap_cons, h a hp, ih]

/-- Helper: the length of a `filterMap` counts the elements the function
keeps. -/
theorem length_filterMap_eq_countP {α β : Type} (f : α → Option β)
    (l : List α) :
    (l.filterMap f).length = l.countP (fun x => (f x).isSome) := by
  induction l with
  | nil => rfl
  | cons a l ih =>
    cases hf : f a with
    | none => simp [List.filterMap_cons, hf, List.countP_cons, ih]
    | some b => simp [List.filterMap_cons, hf, List.countP_cons, ih]

theorem dispatch_transition_isSome (c : Canvas) (t : GlTransition) :
    (dispatch_transition c t).isSome = validTransition c t := by
  unfold dispatch_transition validTransition
  cases c.mesh t.mesh_id <;>
    cases renderer_transition_pipelines.get? t.pipeline_id <;>
    cases c.materials.get? t.from_id <;> cases c.materials.get? t.to_id <;>
    simp

theorem dispatch_object_isSome (c : Canvas) (o : GlObject) :
    (dispatch_object c o).isSome = validObject c o := by
  unfold dispatch_object validObject
  cases c.mesh o.mesh_id <;> cases renderer_pipelines.get? o.pipeline_id <;>
    cases c.materials.get? o.material_id <;> simp

theorem dispatch_transition_kind (c : Canvas) (t : GlTransition)
    (d : DrawCall) (h : dispatch_transition c t = some d) :
    d.isTransition = true := by
  unfold dispatch_transition at h
  split at h
  · cases h
    rfl
  · exact Option.noConfusion h

theorem dispatch_object_kind (c : Canvas) (o : GlObject) (d : DrawCall)
    (h : dispatch_object c o = some d) : d.isTransition = false := by
  unfold dispatch_object at h
  split at h
  · cases h
    rfl
  · exact Option.noConfusion h

theorem dispatch_transition_none_of_invalid (c : Canvas) (t : GlTransition)
    (hv : validTransition c t = false) : dispatch_transition c t = none := by
  have h := dispatch_transition_isSome c t
  rw [hv] at h
  exact Option.not_isSome_iff_eq_none.mp (by simp [h])

theorem dispatch_object_none_of_invalid (c : Canvas) (o : GlObject)
    (hv : validObject c o = false) : dispatch_object c o = none := by
  have h := dispatch_object_isSome c o
  rw [hv] at h
  exact Option.not_isSome_iff_eq_none.mp (by simp [h])

/-- Claim C7: the first render pass draws all transitions before all static
objects; a draw instruction whose mesh, pipeline or material lookup fails is
silently skipped while the remaining instructions are still drawn (removing
the invalid records does not change the pass), and exactly the instructions
with all lookups succeeding are drawn. -/
theorem render_1st_pass_skip_and_order (c : Canvas) :
    render_1st_pass c =
      render_1st_pass
        { c with transitions := c.transitions.filter (validTransition c),
                 objects := c.objects.filter (validObject c) } ∧
    (render_1st_pass c).length =
      c.transitions.countP (validTransition c) +
        c.objects.countP (validObject c) ∧
    render_1st_pass c =
      (render_1st_pass c).filter DrawCall.isTransition ++
        (render_1st_pass c).filter (fun d => ! d.isTransition) := by
  have e1 : (c.transitions.filter (validTransition c)).filterMap
      (dispatch_transition c) = c.transitions.filterMap (dispatch_transition c) :=
    filterMap_filter_of_none _ _ _
      (fun t hv => dispatch_transition_none_of_invalid c t hv)
  have e2 : (c.objects.filter (validObject c)).filterMap
      (dispatch_object c) = c.objects.filterMap (dispatch_object c) :=
    filterMap_filter_of_none _ _ _
      (fun o hv => dispatch_object_none_of_invalid c o hv)
  refine ⟨?_, ?_, ?_⟩
  · exact (congrArg₂ (fun a b => a ++ b) e1.symm e2.symm :
      render_1st_pass c =
        render_1st_pass
          { c with transitions := c.transitions.filter (validTransition c),
                   objects := c.objects.filter (validObject c) })
  · have hc1 : ∀ x ∈ c.transitions,
        ((dispatch_transition c x).isSome = true ↔ validTransition c x = true) :=
      fun x _ => by rw [dispatch_transition_isSome c x]
    have hc2 : ∀ x ∈ c.objects,
        ((dispatch_object c x).isSome = true ↔ validObject c x = true) :=
      fun x _ => by rw [dispatch_object_isSome c x]
    unfold render_1st_pass
    rw [List.length_append, length_filterMap_eq_countP,
      length_filterMap_eq_countP,
      List.countP_congr hc1, List.countP_congr hc2]
  · unfold render_1st_pass
    rw [List.filter_append, List.filter_append]
    have h1 : (c.transitions.filterMap (dispatch_transition c)).filter
        DrawCall.isTransition = c.transitions.filterMap (dispatch_transition c) := by
      rw [List.filter_eq_self]
      intro d hd
      obtain ⟨t, _, ht⟩ := List.mem_filterMap.mp hd
      exact dispatch_transition_kind c t d ht
    have h2 : (c.objects.filterMap (dispatch_object c)).filter
        DrawCall.isTransition = [] := by
      rw [List.filter_eq_nil_iff]
      intro d hd
      obtain ⟨o, _, ho⟩ := List.mem_filterMap.mp hd
      simp [dispatch_object_kind c o d ho]
    have h3 : (c.transitions.filterMap (dispatch_transition c)).filter
        (fun d => ! d.isTransition) = [] := by
      rw [List.filter_eq_nil_iff]
      intro d hd
      obtain ⟨t, _, ht⟩ := List.mem_filterMap.mp hd
      simp [dispatch_transition_kind c t d ht]
    have h4 : (c.objects.filterMap (dispatch_object c)).filter
        (fun d => ! d.isTransition) = c.objects.filterMap (dispatch_object c) := by
      rw [List.filter_eq_self]
      intro d hd
      obtain ⟨o, _, ho⟩ := List.mem_filterMap.mp hd
      simp [dispatch_object_kind c o d ho]
    rw [h1, h2, h3, h4, List.append_nil, List.nil_append]

/-- Four-component vector from `src/v2d/v4.rs`. -/
structure V4 where
  x0 : ℚ
  x1 : ℚ
  x2 : ℚ
  x3 : ℚ
  deriving DecidableEq

/-- Handle from `src/scene/mod.rs`: optional material slot, optional mesh
slot, cached aspect ratio. -/
structure Handle where
  material_id : Option Nat
  mesh_id : Option Nat
  aspect_ratio : ℚ
  deriving DecidableEq

/-- Picture element from `src/scene/mod.rs`. -/
structure Picture where
  dst : Rect
  src : Rect
  opacity : ℚ
  handle : Handle
  deriving DecidableEq

/-- Icon element from `src/scene/mod.rs`. -/
structure Icon where
  dst : Rect
  opacity : ℚ
  color : V4
  handle : Handle
  deriving DecidableEq

/-- Text element from `src/scene/mod.rs`. -/
structure Text where
  dst : Rect
  opacity : ℚ
  color : V4
  handle : Handle
  deriving DecidableEq

/-- Modelled from the spec: the `Transition` element constructed by
`SlideShowScene::transition_layout` in `src/scene/slideshow.rs` — its type
declaration is missing from the sources (the `Element` enum in
`src/scene/mod.rs` predates it).  Per the spec, a transition is a draw
instruction blending two materials with a progress value and source and
destination placement rectangles; the fields are exactly those the slideshow
call site populates (`from`/`to` are named `from_h`/`to_h` here because
`from` is a Lean keyword). -/
structure Transition where
  from_dst : Rect
  from_src : Rect
  to_dst : Rect
  to_src : Rect
  from_h : Handle
  to_h : Handle
  progress : ℚ
  deriving DecidableEq

/-- Element enum from `src/scene/mod.rs`, extended with the `Transition`
variant the slideshow constructs (see `Transition`). -/
inductive Element where
  | Picture (p : Picture)
  | Thumbnail (p : Picture)
  | Icon (i : Icon)
  | Text (t : Text)
  | Transition (t : Transition)
  deriving DecidableEq

/-- Layout-item id from `src/scene/mod.rs` (`LayoutId`). -/
structure LayoutId where
  val : Nat
  deriving DecidableEq

/-- Layout item from `src/scene/mod.rs`. -/
structure LayoutItem where
  id : LayoutId
  element : Element
  animation_time : Option ℚ
  deriving DecidableEq

/-- Layout from `src/scene/mod.rs`: a flat ordered item list. -/
structure Layout where
  items : List LayoutItem
  deriving DecidableEq

/-- Decoded WebP frame as consumed by `Layouter::load_photo`
(`miniwebp::read_image` is external): the macroblock grid size. -/
structure Frame where
  mb_width : Nat
  mb_height : Nat
  deriving DecidableEq

/-- Font glyph from `src/scene/font.rs`: atlas UV bounds, plane bounds
(four values each, indexed 0..3) and advance width. -/
structure FontGlyph where
  uv : List ℚ
  xy : List ℚ
  advance : ℚ
  deriving DecidableEq

/-- Font from `src/scene/font.rs`: atlas size plus the glyph table keyed by
code point (the atlas bitmap bytes are not modelled; they only feed the
texture upload). -/
structure Font where
  width : Nat
  height : Nat
  glyphs : List (Nat × FontGlyph)
  deriving DecidableEq

/-- Single-texture creation at the `Canvas` level as used by
`src/scene/layouter.rs` (which treats it as infallible). -/
def Canvas.create_texture (c : Canvas) (_w _h _format : Nat) :
    GlMaterial × Canvas :=
  (.Texture c.next_name, { c with next_name := c.next_name + 1 })

/-- Pipeline enumeration from `src/core/gl_pipeline.rs`
(`GlPipelineType`). -/
inductive GlPipelineType where
  | RGBATex
  | YUVTex
  | MSDFTex
  | YUVDual
  | Colored
  deriving DecidableEq

/-- The `From<GlPipelineType> for usize` mapping from
`src/core/gl_pipeline.rs`. -/
def GlPipelineType.toUsize : GlPipelineType → Nat
  | .RGBATex => 0
  | .YUVTex => 1
  | .MSDFTex => 2
  | .YUVDual => 3
  | .Colored => 4

/-- Model transform from `src/scene/photo.rs` (`transform`): scale by the
destination size, translate by the destination position. -/
def transform (dst : Rect) : M4x4 :=
  ⟨[dst.size.x0, 0, 0, 0,
    0, dst.size.x1, 0, 0,
    0, 0, 1, 0,
    dst.pos.x0, dst.pos.x1, 0, 1]⟩

/-- Bounds-checked slot lookup:
`self.materials.get(id).and_then(|m| m.as_ref())` from
`src/scene/layouter.rs`, returning `none` both out of range and for an empty
slot. -/
def slot? {α : Type} : List (Option α) → Nat → Option α
  | [], _ => none
  | x :: _, 0 => x
  | _ :: xs, n + 1 => slot? xs n

/-- Layout engine from `src/scene/layouter.rs` (`Layouter`): the resource
pool, the font, the two free-list-backed slot arrays, and the persistent
font material and quad mesh. -/
structure Layouter where
  canvas : Canvas
  font : Font
  materials : List (Option GlMaterial)
  meshes : List (Option GlMesh)
  free_material_ids : List Nat
  free_mesh_ids : List Nat
  font_texture : GlMaterial
  quad_mesh : GlMesh

/-- The shared quad from `src/scene/layouter.rs` (`create_plane_mesh`). -/
def create_plane_mesh : List Vertex :=
  [⟨⟨0, 0⟩, ⟨0, 1⟩⟩, ⟨⟨1, 0⟩, ⟨1, 1⟩⟩, ⟨⟨0, 1⟩, ⟨0, 0⟩⟩, ⟨⟨1, 1⟩, ⟨1, 0⟩⟩]

/-- Constructor from `src/scene/layouter.rs` (`Layouter::new`): uploads the
font atlas texture and the shared quad mesh; the slot arrays and free lists
start empty.  (`Font::load` is external IO; the decoded font is passed
in.) -/
def Layouter.new (canvas : Canvas) (font : Font) : Layouter :=
  let r1 := canvas.create_texture font.width font.height 0
  let r2 := r1.2.create_mesh create_plane_mesh
  { canvas := r2.2, font := font, materials := [], meshes := [],
    free_material_ids := [], free_mesh_ids := [],
    font_texture := r1.1, quad_mesh := r2.1 }

/-- Slot allocation from `src/scene/layouter.rs` (`insert_material`): pop a
reclaimed id from the free list (the stack's top is modelled at the list
head) or grow the array. -/
def Layouter.insert_material (l : Layouter) (material : GlMaterial) :
    Nat × Layouter :=
  match l.free_material_ids with
  | id :: rest =>
    (id, { l with materials := l.materials.set id (some material),
                  free_material_ids := rest })
  | [] =>
    (l.materials.length, { l with materials := l.materials ++ [some material] })

/-- Slot allocation from `src/scene/layouter.rs` (`insert_mesh`). -/
def Layouter.insert_mesh (l : Layouter) (mesh : GlMesh) : Nat × Layouter :=
  match l.free_mesh_ids with
  | id :: rest =>
    (id, { l with meshes := l.meshes.set id (some mesh),
                  free_mesh_ids := rest })
  | [] =>
    (l.meshes.length, { l with meshes := l.meshes ++ [some mesh] })

/-- Lookup from `src/scene/layouter.rs` (`get_material`). -/
def Layouter.get_material (l : Layouter) (handle : Handle) :
    Option GlMaterial :=
  match handle.material_id with
  | some material_id => slot? l.materials material_id
  | none => none

/-- Lookup from `src/scene/layouter.rs` (`get_mesh`). -/
def Layouter.get_mesh (l : Layouter) (handle : Handle) : Option GlMesh :=
  match handle.mesh_id with
  | some mesh_id => slot? l.meshes mesh_id
  | none => none

/-- Material half of `Layouter::free_handle`: when the handle references a
populated material slot, delete the material, clear the slot and return the
id to the free list. -/
def free_material_side (l : Layouter) (handle : Handle) : Layouter :=
  match handle.material_id with
  | some id =>
    match slot? l.materials id with
    | some material =>
      { l with canvas := l.canvas.delete_material material,
               materials := l.materials.set id none,
               free_material_ids := id :: l.free_material_ids }
    | none => l
  | none => l

/-- Mesh half of `Layouter::free_handle`. -/
def free_mesh_side (l : Layouter) (handle : Handle) : Layouter :=
  match handle.mesh_id with
  | some id =>
    match slot? l.meshes id with
    | some mesh =>
      { l with canvas := l.canvas.delete_mesh mesh,
               meshes := l.meshes.set id none,
               free_mesh_ids := id :: l.free_mesh_ids }
    | none => l
  | none => l

/-- Handle release from `src/scene/layouter.rs` (`free_handle`): releases
the populated material and/or mesh slot; freeing an empty or already-freed
handle is a no-op. -/
def Layouter.free_handle (l : Layouter) (handle : Handle) : Layouter :=
  free_mesh_side (free_material_side l handle) handle

/-- Photo upload from `src/scene/layouter.rs` (`load_photo`): texture size
is the decoder's macroblock grid times 16; uploads a three-plane material
and returns a material-only handle with the derived aspect ratio.  (The
file read and WebP decode are external IO; the decoded frame is passed
in.) -/
def Layouter.load_photo (l : Layouter) (frame : Frame) : Handle × Layouter :=
  let tx_width := frame.mb_width * 16
  let tx_height := frame.mb_height * 16
  let r := l.canvas.create_yuv_texture tx_width tx_height 2
  let r2 := Layouter.insert_material { l with canvas := r.2 } r.1
  ({ material_id := some r2.1, mesh_id := none,
     aspect_ratio := (tx_width : ℚ) / (tx_height : ℚ) }, r2.2)

/-- Two triangles per glyph, from `src/scene/layouter.rs`
(`add_plane_quad`). -/
def add_plane_quad (verts : List Vertex) (uv : V2) (u v : ℚ) (xy : V2)
    (x y : ℚ) : List Vertex :=
  verts ++
    [⟨xy + ⟨0, 0⟩, uv + ⟨0, v⟩⟩, ⟨xy + ⟨x, 0⟩, uv + ⟨u, v⟩⟩,
     ⟨xy + ⟨0, y⟩, uv + ⟨0, 0⟩⟩, ⟨xy + ⟨0, y⟩, uv + ⟨0, 0⟩⟩,
     ⟨xy + ⟨x, 0⟩, uv + ⟨u, v⟩⟩, ⟨xy + ⟨x, y⟩, uv + ⟨u, 0⟩⟩]

/-- Glyph emission from `src/scene/layouter.rs` (`add_glyph`): atlas UV with
the v axis flipped, plane bounds offset by the pen position, pen advanced by
the glyph's advance width. -/
def add_glyph (glyph : FontGlyph) (pos : V2) (verts : List Vertex) :
    V2 × List Vertex :=
  let uv_u := glyph.uv.getD 0 0
  let uv_v := 1 - glyph.uv.getD 3 0
  let uv_width := glyph.uv.getD 2 0 - glyph.uv.getD 0 0
  let uv_height := glyph.uv.getD 3 0 - glyph.uv.getD 1 0
  let uv_pos : V2 := ⟨uv_u, uv_v⟩
  let xy_x := glyph.xy.getD 0 0
  let xy_y := glyph.xy.getD 1 0
  let xy_width := glyph.xy.getD 2 0 - glyph.xy.getD 0 0
  let xy_height := glyph.xy.getD 3 0 - glyph.xy.getD 1 0
  let xy := pos + ⟨xy_x, xy_y⟩
  (pos + ⟨glyph.advance, 0⟩,
    add_plane_quad verts uv_pos uv_width uv_height xy xy_width xy_height)

/-- The code-point walk of `Layouter::create_text`: glyph-table misses are
skipped.  (`next_code_point` decodes UTF-8; the already-decoded code points
are passed in.) -/
def text_verts (font : Font) : List Nat → V2 → List Vertex → List Vertex
  | [], _, verts => verts
  | ch :: rest, pos, verts =>
    match font.glyphs.lookup ch with
    | some glyph =>
      let r := add_glyph glyph pos verts
      text_verts font rest r.1 r.2
    | none => text_verts font rest pos verts

/-- Text creation from `src/scene/layouter.rs` (`create_text`): builds one
mesh for the whole string and returns a mesh-only handle. -/
def Layouter.create_text (l : Layouter) (text : List Nat) :
    Handle × Layouter :=
  let verts := text_verts l.font text ⟨0, 0⟩ []
  let r := l.canvas.create_mesh verts
  let r2 := Layouter.insert_mesh { l with canvas := r.2 } r.1
  ({ material_id := none, mesh_id := some r2.1, aspect_ratio := 0 }, r2.2)

/-- Modelled from the spec: `create_multiline_text` is called by the
slideshow (`src/scene/slideshow.rs`) but its definition is missing from the
sources.  Per the spec's text-creation contract it builds one mesh for the
whole (wrapped) string from its glyphs and returns a Handle with only
`mesh_id` populated; at the resource level it allocates exactly one mesh
slot, like `create_text`. -/
def Layouter.create_multiline_text (l : Layouter) (text : List Nat)
    (_max_width : ℚ) : Handle × Layouter :=
  l.create_text text

/-- One step of the item loop in `Layouter::update_layout`
(`src/scene/layouter.rs`): a Picture with a live material becomes a
YUV-pipeline object over the shared quad (mesh id 0); a Text with a live
mesh becomes an MSDF-pipeline object over the font material (material
id 0); every other element kind — including `Transition` — falls into the
`_ => {}` arm and is dropped. -/
def update_layout_step (l : Layouter)
    (acc : List GlObject × List GlMaterial × List GlMesh)
    (item : LayoutItem) : List GlObject × List GlMaterial × List GlMesh :=
  match item.element with
  | .Picture picture =>
    match l.get_material picture.handle with
    | some material =>
      (acc.1 ++ [⟨0, GlPipelineType.YUVTex.toUsize, acc.2.1.length,
          transform picture.dst⟩],
        acc.2.1 ++ [material], acc.2.2)
    | none => acc
  | .Text text =>
    match l.get_mesh text.handle with
    | some mesh =>
      (acc.1 ++ [⟨acc.2.2.length, GlPipelineType.MSDFTex.toUsize, 0,
          transform text.dst⟩],
        acc.2.1, acc.2.2 ++ [mesh])
    | none => acc
  | _ => acc

/-- Draw-list rebuild from `src/scene/layouter.rs` (`update_layout`): starts
the materials list with the font material and the meshes list with the
shared quad, folds the items, and pushes the result to the resource pool.
The source's `canvas.update(objects, materials, meshes)` call passes no
transition list (it predates `Canvas::update`'s `transitions` parameter),
so the pushed transition list is empty. -/
def Layouter.update_layout (l : Layouter) (layout : Layout) : Layouter :=
  let acc := layout.items.foldl (update_layout_step l)
    ([], [l.font_texture], [l.quad_mesh])
  { l with canvas := l.canvas.update acc.1 [] acc.2.1 acc.2.2 }

/-- Concrete empty canvas for the C1 evaluation. -/
def demo_canvas : Canvas :=
  { aspect_ratio := 1, objects := [], transitions := [], materials := [],
    meshes := [], next_name := 0, deleted_materials := [],
    deleted_meshes := [] }

/-- Concrete layouter with two live photo materials. -/
def demo_layouter : Layouter :=
  ((Layouter.new demo_canvas ⟨2, 2, []⟩).load_photo ⟨1, 1⟩).2.load_photo
    ⟨2, 1⟩ |>.2

def demo_h1 : Handle := ((Layouter.new demo_canvas ⟨2, 2, []⟩).load_photo ⟨1, 1⟩).1

def demo_h2 : Handle :=
  (((Layouter.new demo_canvas ⟨2, 2, []⟩).load_photo ⟨1, 1⟩).2.load_photo ⟨2, 1⟩).1

/-- A layout holding a single active transition item between the two live
photo handles. -/
def demo_transition_layout : Layout :=
  ⟨[⟨⟨0⟩, .Transition
      ⟨⟨⟨0, 0⟩, ⟨1, 1⟩⟩, ⟨⟨0, 0⟩, ⟨1, 1⟩⟩, ⟨⟨0, 0⟩, ⟨1, 1⟩⟩, ⟨⟨0, 0⟩, ⟨1, 1⟩⟩,
        demo_h1, demo_h2, 1 / 2⟩, some (1 / 2)⟩]⟩

/-- Claim C1: evaluation at the failing input.  Both handles are live in the
layouter, yet `update_layout` on a layout consisting of one active
transition item pushes an empty transition list and no draw object at all to
the resource pool — the `Transition` element falls into `update_layout`'s
wildcard arm, so no blend-pipeline (`YUVDual`) instruction is ever produced,
while the materials and meshes lists still start with the font material and
the shared quad. -/
theorem update_layout_drops_transition_items :
    (demo_layouter.get_material demo_h1).isSome = true ∧
    (demo_layouter.get_material demo_h2).isSome = true ∧
    (demo_layouter.update_layout demo_transition_layout).canvas.transitions
      = [] ∧
    (demo_layouter.update_layout demo_transition_layout).canvas.objects
      = [] ∧
    (demo_layouter.update_layout demo_transition_layout).canvas.materials
      = [demo_layouter.font_texture] ∧
    (demo_layouter.update_layout demo_transition_layout).canvas.meshes
      = [demo_layouter.quad_mesh] := by
  refine ⟨rfl, rfl, rfl, ?_, ?_, ?_⟩ <;> rfl

/-- Allocation / free operations driven against a `Layouter`, for the
free-list invariant: `freeLive k` frees the `k`-th currently live handle. -/
inductive LayouterOp where
  | loadPhoto (frame : Frame)
  | createText (text : List Nat)
  | freeLive (k : Nat)

/-- One operation against the layouter plus the list of live handles (the
handles returned by allocations and not yet freed). -/
def runOp : Layouter × List Handle → LayouterOp → Layouter × List Handle
  | (l, live), .loadPhoto f => ((l.load_photo f).2, (l.load_photo f).1 :: live)
  | (l, live), .createText t =>
    ((l.create_text t).2, (l.create_text t).1 :: live)
  | (l, live), .freeLive k =>
    match live.get? k with
    | some h => (l.free_handle h, live.eraseIdx k)
    | none => (l, live)

def runOps (l : Layouter) (ops : List LayouterOp) : Layouter × List Handle :=
  ops.foldl runOp (l, [])

/-- The slot-table invariant: every free id is in range and addresses an
empty slot, the free list has no duplicates, every live id addresses a
populated slot, and no id is live twice. -/
def TableInv {α : Type} (slots : List (Option α)) (free_ids : List Nat)
    (ids : List Nat) : Prop :=
  (∀ id ∈ free_ids, id < slots.length ∧ slot? slots id = none) ∧
  free_ids.Nodup ∧
  (∀ id ∈ ids, (slot? slots id).isSome = true) ∧
  ids.Nodup

def idsOfMat (live : List Handle) : List Nat :=
  live.filterMap Handle.material_id

def idsOfMesh (live : List Handle) : List Nat :=
  live.filterMap Handle.mesh_id

def MatInv (l : Layouter) (live : List Handle) : Prop :=
  TableInv l.materials l.free_material_ids (idsOfMat live)

def MeshInv (l : Layouter) (live : List Handle) : Prop :=
  TableInv l.meshes l.free_mesh_ids (idsOfMesh live)

theorem slot?_of_ge {α : Type} (xs : List (Option α)) (i : Nat)
    (h : xs.length ≤ i) : slot? xs i = none := by
  induction xs generalizing i with
  | nil => rfl
  | cons x xs ih =>
    cases i with
    | zero => simp at h
    | succ i => exact ih i (by simpa using h)

theorem lt_of_slot?_isSome {α : Type} (xs : List (Option α)) (i : Nat)
    (h : (slot? xs i).isSome = true) : i < xs.length := by
  by_contra hge
  rw [slot?_of_ge xs i (le_of_not_lt hge)] at h
  simp at h

theorem slot?_set_self {α : Type} (xs : List (Option α)) (i : Nat)
    (v : Option α) (h : i < xs.length) : slot? (xs.set i v) i = v := by
  induction xs generalizing i with
  | nil => simp at h
  | cons x xs ih =>
    cases i with
    | zero => rfl
    | succ i => exact ih i (by simpa using h)

theorem slot?_set_ne {α : Type} (xs : List (Option α)) (i j : Nat)
    (v : Option α) (h : i ≠ j) : slot? (xs.set i v) j = slot? xs j := by
  induction xs generalizing i j with
  | nil => rfl
  | cons x xs ih =>
    cases i with
    | zero =>
      cases j with
      | zero => exact absurd rfl h
      | succ j => rfl
    | succ i =>
      cases j with
      | zero => rfl
      | succ j => exact ih i j (fun he => h (by rw [he]))

theorem slot?_append_lt {α : Type} (xs ys : List (Option α)) (i : Nat)
    (h : i < xs.length) : slot? (xs ++ ys) i = slot? xs i := by
  induction xs generalizing i with
  | nil => simp at h
  | cons x xs ih =>
    cases i with
    | zero => rfl
    | succ i => exact ih i (by simpa using h)

theorem slot?_append_self {α : Type} (xs : List (Option α)) (v : Option α) :
    slot? (xs ++ [v]) xs.length = v := by
  induction xs with
  | nil => rfl
  | cons x xs ih => exact ih

/-- Inserting into a freshly popped free id preserves the invariant, the
popped id addressing an empty slot beforehand. -/
theorem tableInv_insert_pop {α : Type} (slots : List (Option α))
    (id : Nat) (rest ids : List Nat) (v : α)
    (hinv : TableInv slots (id :: rest) ids) :
    TableInv (slots.set id (some v)) rest (id :: ids) := by
  obtain ⟨hfree, hnodup, hlive, hids⟩ := hinv
  obtain ⟨hlt, _⟩ := hfree id (List.mem_cons_self id rest)
  refine ⟨?_, (List.nodup_cons.mp hnodup).2, ?_, ?_⟩
  · intro j hj
    have hne : id ≠ j := fun he =>
      (List.nodup_cons.mp hnodup).1 (he ▸ hj)
    obtain ⟨hjlt, hjslot⟩ := hfree j (List.mem_cons_of_mem id hj)
    exact ⟨by simpa using hjlt, by rw [slot?_set_ne slots id j _ hne]; exact hjslot⟩
  · intro j hj
    rcases List.mem_cons.mp hj with he | hj
    · subst he
      rw [slot?_set_self slots j _ hlt]
      rfl
    · have hs := hlive j hj
      have hne : id ≠ j := fun he => by
        obtain ⟨_, hslot⟩ := hfree id (List.mem_cons_self id rest)
        rw [← he, hslot] at hs
        simp at hs
      rw [slot?_set_ne slots id j _ hne]
      exact hs
  · refine List.nodup_cons.mpr ⟨fun hmem => ?_, hids⟩
    have hs := hlive id hmem
    obtain ⟨_, hslot⟩ := hfree id (List.mem_cons_self id rest)
    rw [hslot] at hs
    simp at hs

/-- Growing the slot array preserves the invariant. -/
theorem tableInv_insert_grow {α : Type} (slots : List (Option α))
    (free_ids ids : List Nat) (v : α)
    (hinv : TableInv slots free_ids ids) :
    TableInv (slots ++ [some v]) free_ids (slots.length :: ids) := by
  obtain ⟨hfree, hnodup, hlive, hids⟩ := hinv
  refine ⟨?_, hnodup, ?_, ?_⟩
  · intro j hj
    obtain ⟨hjlt, hjslot⟩ := hfree j hj
    refine ⟨by simp; omega, ?_⟩
    rw [slot?_append_lt slots [some v] j hjlt]
    exact hjslot
  · intro j hj
    rcases List.mem_cons.mp hj with he | hj
    · subst he
      rw [slot?_append_self]
      rfl
    · have hs := hlive j hj
      have hjlt := lt_of_slot?_isSome slots j hs
      rw [slot?_append_lt slots [some v] j hjlt]
      exact hs
  · refine List.nodup_cons.mpr ⟨fun hmem => ?_, hids⟩
    have hs := hlive slots.length hmem
    have := lt_of_slot?_isSome slots slots.length hs
    omega

/-- Dropping live ids preserves the invariant. -/
theorem tableInv_weaken {α : Type} (slots : List (Option α))
    (free_ids ids ids' : List Nat) (hsub : List.Sublist ids' ids)
    (hinv : TableInv slots free_ids ids) : TableInv slots free_ids ids' :=
  ⟨hinv.1, hinv.2.1, fun j hj => hinv.2.2.1 j (hsub.mem hj),
    hinv.2.2.2.sublist hsub⟩

/-- Freeing one live id — clearing its slot and pushing it on the free
list — preserves the invariant. -/
theorem tableInv_free {α : Type} (slots : List (Option α))
    (free_ids ids1 ids2 : List Nat) (id : Nat)
    (hinv : TableInv slots free_ids (ids1 ++ id :: ids2)) :
    TableInv (slots.set id none) (id :: free_ids) (ids1 ++ ids2) := by
  obtain ⟨hfree, hnodup, hlive, hids⟩ := hinv
  have hmem : id ∈ ids1 ++ id :: ids2 := by simp
  have hs := hlive id hmem
  have hlt := lt_of_slot?_isSome slots id hs
  have hid_not_free : id ∉ free_ids := fun hmemf => by
    obtain ⟨_, hslot⟩ := hfree id hmemf
    rw [hslot] at hs
    simp at hs
  have hid_not_rest : id ∉ ids1 ++ ids2 :=
    (List.nodup_cons.mp (List.nodup_middle.mp hids)).1
  refine ⟨?_, List.nodup_cons.mpr ⟨hid_not_free, hnodup⟩, ?_, ?_⟩
  · intro j hj
    rcases List.mem_cons.mp hj with he | hj
    · subst he
      exact ⟨by simpa using hlt, slot?_set_self slots j none hlt⟩
    · obtain ⟨hjlt, hjslot⟩ := hfree j hj
      have hne : id ≠ j := fun he => hid_not_free (he ▸ hj)
      exact ⟨by simpa using hjlt,
        by rw [slot?_set_ne slots id j _ hne]; exact hjslot⟩
  · intro j hj
    have hjmem : j ∈ ids1 ++ id :: ids2 := by
      rcases List.mem_append.mp hj with h1 | h2
      · exact List.mem_append.mpr (Or.inl h1)
      · exact List.mem_append.mpr (Or.inr (List.mem_cons_of_mem id h2))
    have hne : id ≠ j := fun he => hid_not_rest (he ▸ hj)
    rw [slot?_set_ne slots id j _ hne]
    exact hlive j hjmem
  · exact (List.nodup_cons.mp (List.nodup_middle.mp hids)).2

theorem idsOfMat_append (a b : List Handle) :
    idsOfMat (a ++ b) = idsOfMat a ++ idsOfMat b := by
  simp [idsOfMat]

theorem idsOfMesh_append (a b : List Handle) :
    idsOfMesh (a ++ b) = idsOfMesh a ++ idsOfMesh b := by
  simp [idsOfMesh]

theorem idsOfMat_cons_some (h : Handle) (live : List Handle) (id : Nat)
    (hm : h.material_id = some id) :
    idsOfMat (h :: live) = id :: idsOfMat live := by
  simp [idsOfMat, List.filterMap_cons, hm]

theorem idsOfMat_cons_none (h : Handle) (live : List Handle)
    (hm : h.material_id = none) : idsOfMat (h :: live) = idsOfMat live := by
  simp [idsOfMat, List.filterMap_cons, hm]

theorem idsOfMesh_cons_some (h : Handle) (live : List Handle) (id : Nat)
    (hm : h.mesh_id = some id) :
    idsOfMesh (h :: live) = id :: idsOfMesh live := by
  simp [idsOfMesh, List.filterMap_cons, hm]

theorem idsOfMesh_cons_none (h : Handle) (live : List Handle)
    (hm : h.mesh_id = none) : idsOfMesh (h :: live) = idsOfMesh live := by
  simp [idsOfMesh, List.filterMap_cons, hm]

theorem get?_decomp {α : Type} (xs : List α) (k : Nat) (a : α)
    (h : xs.get? k = some a) :
    ∃ l1 l2, xs = l1 ++ a :: l2 ∧ xs.eraseIdx k = l1 ++ l2 := by
  induction xs generalizing k with
  | nil => simp at h
  | cons x xs ih =>
    cases k with
    | zero =>
      simp only [List.get?] at h
      cases h
      exact ⟨[], xs, rfl, rfl⟩
    | succ k =>
      obtain ⟨l1, l2, h1, h2⟩ := ih k (by simpa using h)
      exact ⟨x :: l1, l2, by simp [h1], by simp [List.eraseIdx, h2]⟩

theorem insert_material_mesh_fields (l : Layouter) (m : GlMaterial) :
    ((l.insert_material m).2).meshes = l.meshes ∧
    ((l.insert_material m).2).free_mesh_ids = l.free_mesh_ids := by
  unfold Layouter.insert_material
  cases l.free_material_ids <;> exact ⟨rfl, rfl⟩

theorem insert_mesh_mat_fields (l : Layouter) (m : GlMesh) :
    ((l.insert_mesh m).2).materials = l.materials ∧
    ((l.insert_mesh m).2).free_material_ids = l.free_material_ids := by
  unfold Layouter.insert_mesh
  cases l.free_mesh_ids <;> exact ⟨rfl, rfl⟩

theorem free_material_side_mesh_fields (l : Layouter) (h : Handle) :
    (free_material_side l h).meshes = l.meshes ∧
    (free_material_side l h).free_mesh_ids = l.free_mesh_ids := by
  cases hm : h.material_id with
  | none => simp [free_material_side, hm]
  | some id =>
    cases hs : slot? l.materials id with
    | none => simp [free_material_side, hm, hs]
    | some m => simp [free_material_side, hm, hs]

theorem free_mesh_side_mat_fields (l : Layouter) (h : Handle) :
    (free_mesh_side l h).materials = l.materials ∧
    (free_mesh_side l h).free_material_ids = l.free_material_ids := by
  cases hm : h.mesh_id with
  | none => simp [free_mesh_side, hm]
  | some id =>
    cases hs : slot? l.meshes id with
    | none => simp [free_mesh_side, hm, hs]
    | some m => simp [free_mesh_side, hm, hs]

theorem matInv_transport (l l' : Layouter) (live : List Handle)
    (e1 : l'.materials = l.materials)
    (e2 : l'.free_material_ids = l.free_material_ids)
    (hinv : MatInv l live) : MatInv l' live := by
  unfold MatInv
  rw [e1, e2]
  exact hinv

theorem meshInv_transport (l l' : Layouter) (live : List Handle)
    (e1 : l'.meshes = l.meshes) (e2 : l'.free_mesh_ids = l.free_mesh_ids)
    (hinv : MeshInv l live) : MeshInv l' live := by
  unfold MeshInv
  rw [e1, e2]
  exact hinv

/-- `insert_material` preserves both table invariants when the new handle
carries the returned material id and no mesh id. -/
theorem insert_material_inv (l : Layouter) (live : List Handle)
    (m : GlMaterial) (h : Handle)
    (hm : h.material_id = some (l.insert_material m).1)
    (hn : h.mesh_id = none) (hmat : MatInv l live) (hmesh : MeshInv l live) :
    MatInv (l.insert_material m).2 (h :: live) ∧
    MeshInv (l.insert_material m).2 (h :: live) := by
  constructor
  · unfold MatInv
    rw [idsOfMat_cons_some h live _ hm]
    cases hf : l.free_material_ids with
    | cons id rest =>
      have hmat' : TableInv l.materials (id :: rest) (idsOfMat live) := by
        rw [← hf]; exact hmat
      simpa [Layouter.insert_material, hf] using
        tableInv_insert_pop l.materials id rest (idsOfMat live) m hmat'
    | nil =>
      have hmat' : TableInv l.materials [] (idsOfMat live) := by
        rw [← hf]; exact hmat
      simpa [Layouter.insert_material, hf] using
        tableInv_insert_grow l.materials [] (idsOfMat live) m hmat'
  · have e := insert_material_mesh_fields l m
    refine meshInv_transport l _ _ e.1 e.2 ?_
    unfold MeshInv
    rw [idsOfMesh_cons_none h live hn]
    exact hmesh

/-- `insert_mesh` preserves both table invariants when the new handle
carries the returned mesh id and no material id. -/
theorem insert_mesh_inv (l : Layouter) (live : List Handle) (m : GlMesh)
    (h : Handle) (hm : h.mesh_id = some (l.insert_mesh m).1)
    (hn : h.material_id = none) (hmat : MatInv l live)
    (hmesh : MeshInv l live) :
    MatInv (l.insert_mesh m).2 (h :: live) ∧
    MeshInv (l.insert_mesh m).2 (h :: live) := by
  constructor
  · have e := insert_mesh_mat_fields l m
    refine matInv_transport l _ _ e.1 e.2 ?_
    unfold MatInv
    rw [idsOfMat_cons_none h live hn]
    exact hmat
  · unfold MeshInv
    rw [idsOfMesh_cons_some h live _ hm]
    cases hf : l.free_mesh_ids with
    | cons id rest =>
      have hmesh' : TableInv l.meshes (id :: rest) (idsOfMesh live) := by
        rw [← hf]; exact hmesh
      simpa [Layouter.insert_mesh, hf] using
        tableInv_insert_pop l.meshes id rest (idsOfMesh live) m hmesh'
    | nil =>
      have hmesh' : TableInv l.meshes [] (idsOfMesh live) := by
        rw [← hf]; exact hmesh
      simpa [Layouter.insert_mesh, hf] using
        tableInv_insert_grow l.meshes [] (idsOfMesh live) m hmesh'

theorem load_photo_inv (l : Layouter) (live : List Handle) (f : Frame)
    (hmat : MatInv l live) (hmesh : MeshInv l live) :
    MatInv (l.load_photo f).2 ((l.load_photo f).1 :: live) ∧
    MeshInv (l.load_photo f).2 ((l.load_photo f).1 :: live) := by
  exact insert_material_inv _ live _ _ rfl rfl hmat hmesh

theorem create_text_inv (l : Layouter) (live : List Handle) (t : List Nat)
    (hmat : MatInv l live) (hmesh : MeshInv l live) :
    MatInv (l.create_text t).2 ((l.create_text t).1 :: live) ∧
    MeshInv (l.create_text t).2 ((l.create_text t).1 :: live) := by
  exact insert_mesh_inv _ live _ _ rfl rfl hmat hmesh

/-- The material half of `free_handle` preserves the material invariant for
the remaining live handles and leaves the mesh table untouched. -/
theorem free_material_side_inv (l : Layouter) (l1 l2 : List Handle)
    (h : Handle) (hmat : MatInv l (l1 ++ h :: l2)) :
    MatInv (free_material_side l h) (l1 ++ l2) := by
  cases hmid : h.material_id with
  | none =>
    have e : idsOfMat (l1 ++ l2) = idsOfMat (l1 ++ h :: l2) := by
      rw [idsOfMat_append, idsOfMat_append, idsOfMat_cons_none h l2 hmid]
    unfold MatInv
    rw [e]
    simp only [free_material_side, hmid]
    exact hmat
  | some id =>
    have hidsfull : idsOfMat (l1 ++ h :: l2) =
        idsOfMat l1 ++ id :: idsOfMat l2 := by
      rw [idsOfMat_append, idsOfMat_cons_some h l2 id hmid]
    have hmem : id ∈ idsOfMat (l1 ++ h :: l2) := by
      rw [hidsfull]; simp
    have hsome : (slot? l.materials id).isSome = true :=
      hmat.2.2.1 id hmem
    obtain ⟨m, hm⟩ := Option.isSome_iff_exists.mp hsome
    have hfree := tableInv_free l.materials l.free_material_ids
      (idsOfMat l1) (idsOfMat l2) id (by rw [← hidsfull]; exact hmat)
    unfold MatInv
    rw [idsOfMat_append]
    simp only [free_material_side, hmid, hm]
    exact hfree

/-- The mesh half of `free_handle` preserves the mesh invariant for the
remaining live handles. -/
theorem free_mesh_side_inv (l : Layouter) (l1 l2 : List Handle) (h : Handle)
    (hmesh : MeshInv l (l1 ++ h :: l2)) :
    MeshInv (free_mesh_side l h) (l1 ++ l2) := by
  cases hmid : h.mesh_id with
  | none =>
    have e : idsOfMesh (l1 ++ l2) = idsOfMesh (l1 ++ h :: l2) := by
      rw [idsOfMesh_append, idsOfMesh_append, idsOfMesh_cons_none h l2 hmid]
    unfold MeshInv
    rw [e]
    simp only [free_mesh_side, hmid]
    exact hmesh
  | some id =>
    have hidsfull : idsOfMesh (l1 ++ h :: l2) =
        idsOfMesh l1 ++ id :: idsOfMesh l2 := by
      rw [idsOfMesh_append, idsOfMesh_cons_some h l2 id hmid]
    have hmem : id ∈ idsOfMesh (l1 ++ h :: l2) := by
      rw [hidsfull]; simp
    have hsome : (slot? l.meshes id).isSome = true :=
      hmesh.2.2.1 id hmem
    obtain ⟨m, hm⟩ := Option.isSome_iff_exists.mp hsome
    have hfree := tableInv_free l.meshes l.free_mesh_ids
      (idsOfMesh l1) (idsOfMesh l2) id (by rw [← hidsfull]; exact hmesh)
    unfold MeshInv
    rw [idsOfMesh_append]
    simp only [free_mesh_side, hmid, hm]
    exact hfree

theorem free_handle_inv (l : Layouter) (l1 l2 : List Handle) (h : Handle)
    (hmat : MatInv l (l1 ++ h :: l2)) (hmesh : MeshInv l (l1 ++ h :: l2)) :
    MatInv (l.free_handle h) (l1 ++ l2) ∧
    MeshInv (l.free_handle h) (l1 ++ l2) := by
  have hmat1 := free_material_side_inv l l1 l2 h hmat
  have hmeshmid : MeshInv (free_material_side l h) (l1 ++ h :: l2) :=
    meshInv_transport l _ _ (free_material_side_mesh_fields l h).1
      (free_material_side_mesh_fields l h).2 hmesh
  have hmesh1 := free_mesh_side_inv (free_material_side l h) l1 l2 h hmeshmid
  refine ⟨?_, hmesh1⟩
  exact matInv_transport _ _ _
    (free_mesh_side_mat_fields (free_material_side l h) h).1
    (free_mesh_side_mat_fields (free_material_side l h) h).2 hmat1

theorem runOp_inv (s : Layouter × List Handle) (op : LayouterOp)
    (hmat : MatInv s.1 s.2) (hmesh : MeshInv s.1 s.2) :
    MatInv (runOp s op).1 (runOp s op).2 ∧
    MeshInv (runOp s op).1 (runOp s op).2 := by
  obtain ⟨l, live⟩ := s
  cases op with
  | loadPhoto f => exact load_photo_inv l live f hmat hmesh
  | createText t => exact create_text_inv l live t hmat hmesh
  | freeLive k =>
    simp only [runOp]
    cases hk : live.get? k with
    | none => exact ⟨hmat, hmesh⟩
    | some h =>
      obtain ⟨l1, l2, hdec, herase⟩ := get?_decomp live k h hk
      rw [herase]
      subst hdec
      exact free_handle_inv l l1 l2 h hmat hmesh

theorem runOps_foldl_inv (ops : List LayouterOp)
    (s : Layouter × List Handle) (hmat : MatInv s.1 s.2)
    (hmesh : MeshInv s.1 s.2) :
    MatInv (ops.foldl runOp s).1 (ops.foldl runOp s).2 ∧
    MeshInv (ops.foldl runOp s).1 (ops.foldl runOp s).2 := by
  induction ops generalizing s with
  | nil => exact ⟨hmat, hmesh⟩
  | cons op ops ih =>
    have h := runOp_inv s op hmat hmesh
    exact ih (runOp s op) h.1 h.2

/-- Claim C3: for every sequence of layouter allocations (`load_photo`,
`create_text`) and `free_handle` calls starting from a fresh `Layouter`, the
free-list/slot invariant holds: no slot id is referenced by two live handles
at once (material and mesh sides), every id on the free list — in particular
every id popped from it — addresses a `None` slot in range, and an id whose
slot is `Some` is never present on the free list. -/
theorem layouter_free_list_invariant (canvas : Canvas) (font : Font)
    (ops : List LayouterOp) :
    ((runOps (Layouter.new canvas font) ops).2.filterMap
      Handle.material_id).Nodup ∧
    ((runOps (Layouter.new canvas font) ops).2.filterMap
      Handle.mesh_id).Nodup ∧
    (∀ id ∈ (runOps (Layouter.new canvas font) ops).1.free_material_ids,
      id < (runOps (Layouter.new canvas font) ops).1.materials.length ∧
      slot? (runOps (Layouter.new canvas font) ops).1.materials id = none) ∧
    (∀ id, (slot? (runOps (Layouter.new canvas font) ops).1.materials
        id).isSome = true →
      id ∉ (runOps (Layouter.new canvas font) ops).1.free_material_ids) ∧
    (∀ id ∈ (runOps (Layouter.new canvas font) ops).1.free_mesh_ids,
      id < (runOps (Layouter.new canvas font) ops).1.meshes.length ∧
      slot? (runOps (Layouter.new canvas font) ops).1.meshes id = none) ∧
    (∀ id, (slot? (runOps (Layouter.new canvas font) ops).1.meshes
        id).isSome = true →
      id ∉ (runOps (Layouter.new canvas font) ops).1.free_mesh_ids) := by
  have h0mat : MatInv (Layouter.new canvas font) [] := by
    unfold MatInv TableInv
    refine ⟨?_, ?_, ?_, ?_⟩ <;> simp [Layouter.new, idsOfMat]
  have h0mesh : MeshInv (Layouter.new canvas font) [] := by
    unfold MeshInv TableInv
    refine ⟨?_, ?_, ?_, ?_⟩ <;> simp [Layouter.new, idsOfMesh]
  have hinv : MatInv (runOps (Layouter.new canvas font) ops).1
      (runOps (Layouter.new canvas font) ops).2 ∧
      MeshInv (runOps (Layouter.new canvas font) ops).1
      (runOps (Layouter.new canvas font) ops).2 :=
    runOps_foldl_inv ops (Layouter.new canvas font, []) h0mat h0mesh
  obtain ⟨⟨hfree1, _, _, hids1⟩, ⟨hfree2, _, _, hids2⟩⟩ := hinv
  refine ⟨hids1, hids2, hfree1, ?_, hfree2, ?_⟩
  · intro id hsome hmem
    rw [(hfree1 id hmem).2] at hsome
    simp at hsome
  · intro id hsome hmem
    rw [(hfree2 id hmem).2] at hsome
    simp at hsome

/-- User events from `src/scene/mod.rs`. -/
inductive UserEvent where
  | Home
  | Exit
  | Next
  | Previous
  deriving DecidableEq

/-- System events from `src/scene/mod.rs`. -/
inductive SystemEvent where
  | WeatherUpdate
  | Alarm
  deriving DecidableEq

/-- Scene events from `src/scene/mod.rs`. -/
inductive SceneEvent where
  | Enter
  | Exit
  | TimeTick
  | User (u : UserEvent)
  | System (s : SystemEvent)
  deriving DecidableEq

/-- Photo catalogue entry as the slideshow consumes it
(`src/scene/photo.rs`): the decoded frame (the path and WebP decode are
external IO) and the optional title strings from the metadata; strings are
modelled as code-point lists. -/
structure Photo where
  frame : Frame
  title : Option (List (List Nat))
  deriving DecidableEq

/-- Context from `src/scene/mod.rs`, restricted to the photo catalogue (the
clock, weather and locale fields do not interact with the slideshow
machinery modelled here). -/
structure Context where
  photos : List Photo
  deriving DecidableEq

/-- Catalogue lookup from `src/scene/mod.rs` (`Context::find_photo`). -/
def Context.find_photo (ctx : Context) (id : Nat) : Option Photo :=
  ctx.photos.get? id

/-- Per-photo state from `src/scene/slideshow.rs` (`PhotoState`). -/
structure PhotoState where
  index : Nat
  photo : Handle
  text : Handle
  deriving DecidableEq

/-- Slideshow state machine states from `src/scene/slideshow.rs`. -/
inductive SlideshowState where
  | Idle
  | Static (photo : PhotoState)
  | Transitioning (photo_from photo_to : PhotoState) (duration : Nat)
  deriving DecidableEq

/-- Slideshow scene from `src/scene/slideshow.rs` (`SlideShowScene`). -/
structure SlideShowScene where
  photos : List Nat
  title : List Nat
  tick_count : Nat
  index : Nat
  state : SlideshowState
  deriving DecidableEq

/-- Constructor from `src/scene/slideshow.rs` (`SlideShowScene::new`):
rejects an empty photo-index list with `Error::EmptyPhotos`. -/
def SlideShowScene.new (photos : List Nat) (title : List Nat) :
    Except Error SlideShowScene :=
  if photos.isEmpty then .error .EmptyPhotos
  else .ok { photos := photos, title := title, tick_count := 0, index := 0,
             state := .Idle }

def SlideShowScene.next_index (s : SlideShowScene) : Nat :=
  (s.index + 1) % s.photos.length

def SlideShowScene.prev_index (s : SlideShowScene) : Nat :=
  (s.index + s.photos.length - 1) % s.photos.length

/-- Transition finalization from `src/scene/slideshow.rs`
(`finish_transition`): resets the tick counter and, when transitioning,
frees the `from` photo and text handles and becomes `Static` on the `to`
photo. -/
def SlideShowScene.finish_transition (s : SlideShowScene) (layouter : Layouter) :
    SlideShowScene × Layouter :=
  match s.state with
  | .Transitioning photo_from photo_to _ =>
    ({ s with tick_count := 0, state := .Static photo_to },
      (layouter.free_handle photo_from.photo).free_handle photo_from.text)
  | _ => ({ s with tick_count := 0 }, layouter)

/-- The load-and-switch phase of `start_transition`
(`src/scene/slideshow.rs`), operating on the state left behind by
`finish_transition`: look up the catalogue entry (`none` aborts, mirroring
the `?` on `ctx.find_photo`), load the photo, create the caption mesh
(photo title or scene title), and become `Transitioning` from a `Static`
state or `Static` otherwise. -/
def start_transition_load (s1 : SlideShowScene) (next_index : Nat)
    (ctx : Context) (l1 : Layouter) :
    Option Bool × SlideShowScene × Layouter :=
  let id := s1.photos.getD next_index 0
  match ctx.find_photo id with
  | none => (none, s1, l1)
  | some photo =>
    let rp := l1.load_photo photo.frame
    let text := (photo.title.bind List.head?).getD s1.title
    let rt := rp.2.create_multiline_text text ((6 : ℚ) / 10 / (5 / 100))
    let photo_to : PhotoState :=
      ⟨next_index, rp.1, rt.1⟩
    let new_state : SlideshowState :=
      match s1.state with
      | .Static photo => .Transitioning photo photo_to 40
      | _ => .Static photo_to
    (some true,
      { s1 with tick_count := 0, index := next_index, state := new_state },
      rt.2)

/-- Transition start from `src/scene/slideshow.rs` (`start_transition`):
finalizes any in-flight transition first, then runs the load-and-switch
phase.  Photo load and text creation are modelled as succeeding; their
failure modes are file IO and GL errors. -/
def SlideShowScene.start_transition (s : SlideShowScene) (next_index : Nat)
    (ctx : Context) (layouter : Layouter) :
    Option Bool × SlideShowScene × Layouter :=
  let r := s.finish_transition layouter
  start_transition_load r.1 next_index ctx r.2

/-- Static layout from `src/scene/slideshow.rs` (`static_layout`): the
placed photo plus the caption text block. -/
def SlideShowScene.static_layout (_s : SlideShowScene) (current : PhotoState)
    (layouter : Layouter) : Option Layout :=
  let src_aspect := current.photo.aspect_ratio
  let dst_aspect := layouter.canvas.aspect_ratio
  let dst := place_photo src_aspect dst_aspect
  some ⟨[⟨⟨0⟩, .Picture ⟨dst, ⟨⟨0, 0⟩, ⟨1, 1⟩⟩, 1, current.photo⟩,
          some (1 / 2)⟩,
        ⟨⟨1⟩, .Text ⟨⟨⟨1 / 40, 1 / 40⟩, ⟨1 / 20, 1 / 20⟩⟩, 1, ⟨1, 1, 1, 1⟩,
            current.text⟩,
          some (1 / 2)⟩]⟩

/-- Transition layout from `src/scene/slideshow.rs` (`transition_layout`):
one transition element with `progress = min(tick_count / duration, 1.0)`. -/
def SlideShowScene.transition_layout (s : SlideShowScene)
    (photo_from photo_to : PhotoState) (duration : Nat)
    (layouter : Layouter) : Option Layout :=
  let dst_aspect := layouter.canvas.aspect_ratio
  let from_dst := place_photo photo_from.photo.aspect_ratio dst_aspect
  let to_dst := place_photo photo_to.photo.aspect_ratio dst_aspect
  let progress := min ((s.tick_count : ℚ) / (duration : ℚ)) 1
  some ⟨[⟨⟨0⟩, .Transition
      ⟨from_dst, ⟨⟨0, 0⟩, ⟨1, 1⟩⟩, to_dst, ⟨⟨0, 0⟩, ⟨1, 1⟩⟩,
        photo_from.photo, photo_to.photo, progress⟩,
    some (1 / 2)⟩]⟩

/-- Layout dispatch from `src/scene/slideshow.rs` (`layout`). -/
def SlideShowScene.layout (s : SlideShowScene) (layouter : Layouter) :
    Option Layout :=
  match s.state with
  | .Idle => none
  | .Static photo => s.static_layout photo layouter
  | .Transitioning photo_from photo_to duration =>
    s.transition_layout photo_from photo_to duration layouter

/-- Event handling from `src/scene/slideshow.rs` (`Scene::update` for
`SlideShowScene`): Enter/Home restart at index 0 (the `?` on
`start_transition` aborts the call before `layout` when the photo lookup
fails), TimeTick drives the dwell/transition counters (dwell threshold 150,
the transition finishing at its duration), Next/Previous force a transition,
and anything else just re-emits the current layout. -/
def SlideShowScene.update (s : SlideShowScene) (event : SceneEvent)
    (ctx : Context) (layouter : Layouter) :
    Option Layout × SlideShowScene × Layouter :=
  match event with
  | .Enter | .User .Home =>
    let r := s.start_transition 0 ctx layouter
    match r.1 with
    | none => (none, r.2.1, r.2.2)
    | some _ => (r.2.1.layout r.2.2, r.2.1, r.2.2)
  | .TimeTick =>
    let s1 := { s with tick_count := s.tick_count + 1 }
    match s1.state with
    | .Transitioning _ _ duration =>
      if s1.tick_count ≥ duration then
        let r := s1.finish_transition layouter
        (r.1.layout r.2, r.1, r.2)
      else (s1.layout layouter, s1, layouter)
    | .Static _ =>
      if s1.tick_count ≥ 150 then
        let r := s1.start_transition s1.next_index ctx layouter
        (r.2.1.layout r.2.2, r.2.1, r.2.2)
      else (s1.layout layouter, s1, layouter)
    | .Idle => (s1.layout layouter, s1, layouter)
  | .User .Next =>
    let r := s.start_transition s.next_index ctx layouter
    (r.2.1.layout r.2.2, r.2.1, r.2.2)
  | .User .Previous =>
    let r := s.start_transition s.prev_index ctx layouter
    (r.2.1.layout r.2.2, r.2.1, r.2.2)
  | _ => (s.layout layouter, s, layouter)

/-- Advancing the scene index by `next_index`, for iterating the wrap-around
property. -/
def advance (s : SlideShowScene) : SlideShowScene :=
  { s with index := s.next_index }

theorem advance_iterate (k : Nat) (s : SlideShowScene)
    (hN : 0 < s.photos.length) (hi : s.index < s.photos.length) :
    (advance^[k] s).index = (s.index + k) % s.photos.length ∧
    (advance^[k] s).photos = s.photos := by
  induction k generalizing s with
  | zero =>
    simpa using (Nat.mod_eq_of_lt hi).symm
  | succ k ih =>
    rw [Function.iterate_succ_apply]
    have hN' : 0 < (advance s).photos.length := hN
    have hi' : (advance s).index < (advance s).photos.length :=
      Nat.mod_lt _ hN
    obtain ⟨h1, h2⟩ := ih (advance s) hN' hi'
    refine ⟨?_, h2⟩
    rw [h1]
    show ((s.index + 1) % s.photos.length + k) % s.photos.length =
      (s.index + (k + 1)) % s.photos.length
    rw [Nat.mod_add_mod]
    ring_nf

/-- Claim C9: `next_index` is `(index + 1) mod N` and `prev_index` is
`(index − 1) mod N` (as integers); composing `next_index` `N` times returns
the original index, and on a single-photo catalogue both functions return
index 0. -/
theorem next_prev_index_wrap (s : SlideShowScene)
    (hN : 1 ≤ s.photos.length) (hi : s.index < s.photos.length) :
    s.next_index = (s.index + 1) % s.photos.length ∧
    (s.prev_index : ℤ) =
      ((s.index : ℤ) - 1) % (s.photos.length : ℤ) ∧
    (advance^[s.photos.length] s).index = s.index ∧
    (s.photos.length = 1 → s.next_index = 0 ∧ s.prev_index = 0) := by
  refine ⟨rfl, ?_, ?_, ?_⟩
  · unfold SlideShowScene.prev_index
    have hcast : ((s.index + s.photos.length - 1 : Nat) : ℤ) =
        (s.index : ℤ) + (s.photos.length : ℤ) - 1 := by
      have : 1 ≤ s.index + s.photos.length := by omega
      push_cast [Nat.cast_sub this]
      ring
    rw [Int.natCast_mod, hcast]
    have he : (s.index : ℤ) + (s.photos.length : ℤ) - 1 =
        ((s.index : ℤ) - 1) + (s.photos.length : ℤ) * 1 := by ring
    rw [he, Int.add_mul_emod_self_left]
  · obtain ⟨h1, _⟩ := advance_iterate s.photos.length s (by omega) hi
    rw [h1, Nat.add_mod_right, Nat.mod_eq_of_lt hi]
  · intro h1
    constructor
    · unfold SlideShowScene.next_index
      rw [h1, Nat.mod_one]
    · unfold SlideShowScene.prev_index
      rw [h1, Nat.mod_one]

/-- Witness for `next_prev_index_wrap`: a three-photo catalogue at
index 2. -/
theorem next_prev_index_wrap_witness :
    (SlideShowScene.mk [5, 6, 7] [] 0 2 .Idle).next_index = (2 + 1) % 3 ∧
    ((SlideShowScene.mk [5, 6, 7] [] 0 2 .Idle).prev_index : ℤ) =
      ((2 : ℤ) - 1) % (3 : ℤ) ∧
    (advance^[3] (SlideShowScene.mk [5, 6, 7] [] 0 2 .Idle)).index = 2 ∧
    ((SlideShowScene.mk [5, 6, 7] [] 0 2 .Idle).photos.length = 1 →
      (SlideShowScene.mk [5, 6, 7] [] 0 2 .Idle).next_index = 0 ∧
      (SlideShowScene.mk [5, 6, 7] [] 0 2 .Idle).prev_index = 0) :=
  next_prev_index_wrap (SlideShowScene.mk [5, 6, 7] [] 0 2 .Idle)
    (by decide) (by decide)

/-- One scene update as the scene manager drives it
(`src/scene/manager.rs`): the scene and layouter evolve, the produced layout
is forwarded elsewhere. -/
def runScene (ctx : Context) (sl : SlideShowScene × Layouter)
    (ev : SceneEvent) : SlideShowScene × Layouter :=
  ((sl.1.update ev ctx sl.2).2.1, (sl.1.update ev ctx sl.2).2.2)

def runEvents (ctx : Context) (sl : SlideShowScene × Layouter)
    (evs : List SceneEvent) : SlideShowScene × Layouter :=
  evs.foldl (runScene ctx) sl

theorem finish_transition_photos (s : SlideShowScene) (l : Layouter) :
    ((s.finish_transition l).1).photos = s.photos := by
  unfold SlideShowScene.finish_transition
  cases s.state <;> rfl

theorem start_transition_photos (s : SlideShowScene) (n : Nat)
    (ctx : Context) (l : Layouter) :
    ((s.start_transition n ctx l).2.1).photos = s.photos := by
  unfold SlideShowScene.start_transition start_transition_load
  dsimp only
  cases ctx.find_photo ((s.finish_transition l).1.photos.getD n 0) with
  | none => exact finish_transition_photos s l
  | some p => exact finish_transition_photos s l

theorem update_photos (s : SlideShowScene) (ev : SceneEvent) (ctx : Context)
    (l : Layouter) : ((s.update ev ctx l).2.1).photos = s.photos := by
  cases ev with
  | Enter =>
    unfold SlideShowScene.update
    dsimp only
    cases (s.start_transition 0 ctx l).1 with
    | none => exact start_transition_photos s 0 ctx l
    | some b => exact start_transition_photos s 0 ctx l
  | Exit => rfl
  | TimeTick =>
    unfold SlideShowScene.update
    dsimp only
    cases s.state with
    | Idle => rfl
    | Static p =>
      dsimp only
      by_cases hge : s.tick_count + 1 ≥ 150
      · rw [if_pos hge]
        exact start_transition_photos _ _ ctx l
      · rw [if_neg hge]
    | Transitioning f t d =>
      dsimp only
      by_cases hge : s.tick_count + 1 ≥ d
      · rw [if_pos hge]
        exact finish_transition_photos _ l
      · rw [if_neg hge]
  | User u =>
    cases u with
    | Home =>
      unfold SlideShowScene.update
      dsimp only
      cases (s.start_transition 0 ctx l).1 with
      | none => exact start_transition_photos s 0 ctx l
      | some b => exact start_transition_photos s 0 ctx l
    | Exit => rfl
    | Next => exact start_transition_photos s s.next_index ctx l
    | Previous => exact start_transition_photos s s.prev_index ctx l
  | System sys => rfl

theorem runEvents_photos (ctx : Context) (evs : List SceneEvent)
    (sl : SlideShowScene × Layouter) :
    (runEvents ctx sl evs).1.photos = sl.1.photos := by
  induction evs generalizing sl with
  | nil => rfl
  | cons ev evs ih =>
    show (runEvents ctx (runScene ctx sl ev) evs).1.photos = sl.1.photos
    rw [ih (runScene ctx sl ev)]
    exact update_photos sl.1 ev ctx sl.2

/-- Claim C10: `SlideShowScene::new` fails exactly on an empty photo-index
list, with `Error::EmptyPhotos`; a successfully constructed scene keeps its
photo list unchanged through every event sequence, so its length is nonzero
in every reachable state and the modulo arithmetic of
`next_index`/`prev_index` never divides by zero. -/
theorem slideshow_new_empty_photos (photos title : List Nat) (ctx : Context)
    (evs : List SceneEvent) (l : Layouter) :
    (photos = [] → SlideShowScene.new photos title = .error .EmptyPhotos) ∧
    (photos ≠ [] → ∃ s, SlideShowScene.new photos title = .ok s ∧
      (runEvents ctx (s, l) evs).1.photos = photos ∧
      (runEvents ctx (s, l) evs).1.photos.length ≠ 0) := by
  constructor
  · intro h
    subst h
    rfl
  · intro h
    refine ⟨⟨photos, title, 0, 0, .Idle⟩, ?_, ?_, ?_⟩
    · unfold SlideShowScene.new
      rw [if_neg (by simpa [List.isEmpty_iff] using h)]
    · exact runEvents_photos ctx evs (⟨photos, title, 0, 0, .Idle⟩, l)
    · rw [runEvents_photos ctx evs (⟨photos, title, 0, 0, .Idle⟩, l)]
      simpa [List.length_eq_zero] using h

/-- The progress value carried by a single-transition layout, if that is
what the scene emitted. -/
def layoutProgress : Option Layout → Option ℚ
  | some lay =>
    match lay.items with
    | [item] =>
      match item.element with
      | .Transition t => some t.progress
      | _ => none
    | _ => none
  | none => none

/-- Claim C4: while one `Transitioning` state is live, the progress emitted
on a `TimeTick` equals `min(elapsed / duration, 1.0)` for the incremented
elapsed count, lies in `[0, 1]`, does not decrease from the previously
emitted value, and the clamped formula is exactly `1.0` for any elapsed
count at or past the duration. -/
theorem transition_progress_clamped (s : SlideShowScene)
    (f t : PhotoState) (d : Nat) (ctx : Context) (l : Layouter) (n : Nat)
    (hst : s.state = .Transitioning f t d) (hd : 0 < d)
    (hlt : s.tick_count + 1 < d) (hn : d ≤ n) :
    layoutProgress (s.update .TimeTick ctx l).1 =
      some (min (((s.tick_count + 1 : Nat) : ℚ) / (d : ℚ)) 1) ∧
    (s.update .TimeTick ctx l).2.1.state = .Transitioning f t d ∧
    (s.update .TimeTick ctx l).2.1.tick_count = s.tick_count + 1 ∧
    0 ≤ min (((s.tick_count + 1 : Nat) : ℚ) / (d : ℚ)) 1 ∧
    min (((s.tick_count + 1 : Nat) : ℚ) / (d : ℚ)) 1 ≤ 1 ∧
    min ((s.tick_count : ℚ) / (d : ℚ)) 1 ≤
      min (((s.tick_count + 1 : Nat) : ℚ) / (d : ℚ)) 1 ∧
    min ((n : ℚ) / (d : ℚ)) 1 = 1 := by
  have hd' : (0 : ℚ) < (d : ℚ) := by exact_mod_cast hd
  have hnlt : ¬ s.tick_count + 1 ≥ d := by omega
  have hred : s.update .TimeTick ctx l =
      (({ s with tick_count := s.tick_count + 1 } : SlideShowScene).layout l,
        { s with tick_count := s.tick_count + 1 }, l) := by
    unfold SlideShowScene.update
    dsimp only
    rw [show ({ s with tick_count := s.tick_count + 1 } :
      SlideShowScene).state = s.state from rfl, hst]
    dsimp only
    rw [if_neg hnlt]
  rw [hred]
  refine ⟨?_, by rw [hst], rfl, ?_, min_le_right _ _, ?_, ?_⟩
  · show layoutProgress
        (({ s with tick_count := s.tick_count + 1 } :
          SlideShowScene).layout l) = _
    unfold SlideShowScene.layout
    rw [show ({ s with tick_count := s.tick_count + 1 } :
      SlideShowScene).state = s.state from rfl, hst]
    rfl
  · exact le_min (div_nonneg (by positivity) (le_of_lt hd')) (by norm_num)
  · refine min_le_min ?_ le_rfl
    rw [div_le_div_iff₀ hd' hd']
    have : (s.tick_count : ℚ) ≤ ((s.tick_count + 1 : Nat) : ℚ) := by
      push_cast
      linarith
    nlinarith
  · refine min_eq_right ?_
    rw [le_div_iff₀ hd', one_mul]
    exact_mod_cast hn

def c4_from : PhotoState := ⟨0, ⟨some 0, none, 1⟩, ⟨none, some 0, 0⟩⟩

def c4_to : PhotoState := ⟨1, ⟨some 1, none, 3 / 2⟩, ⟨none, some 1, 0⟩⟩

def c4_scene : SlideShowScene :=
  ⟨[0], [], 5, 0, .Transitioning c4_from c4_to 40⟩

/-- Witness for `transition_progress_clamped`: tick 5 of a 40-tick
transition. -/
theorem transition_progress_clamped_witness :
    layoutProgress (c4_scene.update .TimeTick ⟨[]⟩
        (Layouter.new demo_canvas ⟨2, 2, []⟩)).1 =
      some (min (((c4_scene.tick_count + 1 : Nat) : ℚ) / (40 : ℚ)) 1) ∧
    (c4_scene.update .TimeTick ⟨[]⟩
        (Layouter.new demo_canvas ⟨2, 2, []⟩)).2.1.state =
      .Transitioning c4_from c4_to 40 ∧
    (c4_scene.update .TimeTick ⟨[]⟩
        (Layouter.new demo_canvas ⟨2, 2, []⟩)).2.1.tick_count =
      c4_scene.tick_count + 1 ∧
    0 ≤ min (((c4_scene.tick_count + 1 : Nat) : ℚ) / (40 : ℚ)) 1 ∧
    min (((c4_scene.tick_count + 1 : Nat) : ℚ) / (40 : ℚ)) 1 ≤ 1 ∧
    min ((c4_scene.tick_count : ℚ) / (40 : ℚ)) 1 ≤
      min (((c4_scene.tick_count + 1 : Nat) : ℚ) / (40 : ℚ)) 1 ∧
    min ((60 : ℚ) / (40 : ℚ)) 1 = 1 :=
  transition_progress_clamped c4_scene c4_from c4_to 40 ⟨[]⟩
    (Layouter.new demo_canvas ⟨2, 2, []⟩) 60 rfl (by decide) (by decide)
    (by decide)

/-- The handles the slideshow currently holds (accounting order: most
recently allocated first within a transition). -/
def heldHandles (s : SlideShowScene) : List Handle :=
  match s.state with
  | .Idle => []
  | .Static p => [p.photo, p.text]
  | .Transitioning f t _ => [t.text, t.photo, f.photo, f.text]

/-- Identity of a material: the (first) GL texture name behind it.  The
model creates every texture with a fresh name, so this identifies the
allocation. -/
def matKey : GlMaterial → Nat
  | .Color _ => 0
  | .Texture id => id
  | .YuvTexture id_luma _ _ => id_luma

/-- Identity of a mesh: its vertex-array name. -/
def meshKey (m : GlMesh) : Nat := m.vao

/-- The populated slot contents of a slot table. -/
def liveVals {α : Type} (slots : List (Option α)) : List α :=
  slots.filterMap id

/-- Every populated slot index is accounted for in `ids`. -/
def Covers {α : Type} (slots : List (Option α)) (ids : List Nat) : Prop :=
  ∀ j, (slot? slots j).isSome = true → j ∈ ids

theorem slot?_set_none_self {α : Type} (xs : List (Option α)) (i : Nat) :
    slot? (xs.set i none) i = none := by
  induction xs generalizing i with
  | nil => rfl
  | cons x xs ih =>
    cases i with
    | zero => rfl
    | succ i => exact ih i

theorem liveVals_set_none_perm {α : Type} (xs : List (Option α)) (i : Nat)
    (m : α) (h : slot? xs i = some m) :
    List.Perm (liveVals xs) (m :: liveVals (xs.set i none)) := by
  induction xs generalizing i with
  | nil => simp [slot?] at h
  | cons x xs ih =>
    cases i with
    | zero =>
      cases h
      simp [liveVals, List.filterMap_cons]
    | succ i =>
      have hperm := ih i h
      cases x with
      | none =>
        simpa [liveVals, List.filterMap_cons] using hperm
      | some v =>
        simp only [liveVals, List.filterMap_cons, List.set] at hperm ⊢
        exact (hperm.cons v).trans (List.Perm.swap m v _)

theorem liveVals_set_some_perm {α : Type} (xs : List (Option α)) (i : Nat)
    (v : α) (h : slot? xs i = none) (hlt : i < xs.length) :
    List.Perm (liveVals (xs.set i (some v))) (v :: liveVals xs) := by
  induction xs generalizing i with
  | nil => simp at hlt
  | cons x xs ih =>
    cases i with
    | zero =>
      cases h
      simp [liveVals, List.filterMap_cons]
    | succ i =>
      have hperm := ih i h (by simpa using hlt)
      cases x with
      | none =>
        simpa [liveVals, List.filterMap_cons] using hperm
      | some w =>
        simp only [liveVals, List.filterMap_cons, List.set] at hperm ⊢
        exact (hperm.cons w).trans (List.Perm.swap v w _)

theorem liveVals_append_some {α : Type} (xs : List (Option α)) (v : α) :
    liveVals (xs ++ [some v]) = liveVals xs ++ [v] := by
  simp [liveVals]

theorem covers_perm {α : Type} (slots : List (Option α))
    (ids ids' : List Nat) (hperm : List.Perm ids ids')
    (hc : Covers slots ids) : Covers slots ids' :=
  fun j hj => hperm.mem_iff.mp (hc j hj)

theorem covers_set_none {α : Type} (slots : List (Option α)) (id : Nat)
    (ids : List Nat) (hc : Covers slots (id :: ids)) :
    Covers (slots.set id none) ids := by
  intro j hj
  by_cases he : j = id
  · subst he
    rw [slot?_set_none_self] at hj
    simp at hj
  · rw [slot?_set_ne slots id j none (fun hh => he hh.symm)] at hj
    rcases List.mem_cons.mp (hc j hj) with h1 | h1
    · exact absurd h1 he
    · exact h1

theorem covers_id_empty {α : Type} (slots : List (Option α)) (id : Nat)
    (ids : List Nat) (hs : slot? slots id = none)
    (hc : Covers slots (id :: ids)) : Covers slots ids := by
  intro j hj
  rcases List.mem_cons.mp (hc j hj) with h1 | h1
  · subst h1
    rw [hs] at hj
    simp at hj
  · exact h1

theorem covers_insert_set {α : Type} (slots : List (Option α)) (id : Nat)
    (ids : List Nat) (v : α) (hc : Covers slots ids) :
    Covers (slots.set id (some v)) (id :: ids) := by
  intro j hj
  by_cases he : j = id
  · subst he
    exact List.mem_cons_self _ _
  · rw [slot?_set_ne slots id j _ (fun hh => he hh.symm)] at hj
    exact List.mem_cons_of_mem id (hc j hj)

theorem covers_insert_append {α : Type} (slots : List (Option α))
    (ids : List Nat) (v : α) (hc : Covers slots ids) :
    Covers (slots ++ [some v]) (slots.length :: ids) := by
  intro j hj
  have hjlt := lt_of_slot?_isSome _ j hj
  rw [List.length_append, List.length_singleton] at hjlt
  by_cases he : j = slots.length
  · subst he
    exact List.mem_cons_self _ _
  · have hlt : j < slots.length := by omega
    rw [slot?_append_lt slots [some v] j hlt] at hj
    exact List.mem_cons_of_mem _ (hc j hj)

/-- All material allocations (populated slots and deleted-log entries) have
pairwise distinct texture identities, all below the canvas name counter. -/
def FreshMat (l : Layouter) : Prop :=
  ((liveVals l.materials ++ l.canvas.deleted_materials).map matKey).Nodup ∧
  ∀ m ∈ liveVals l.materials ++ l.canvas.deleted_materials,
    matKey m < l.canvas.next_name

/-- Mesh-side counterpart of `FreshMat`. -/
def FreshMesh (l : Layouter) : Prop :=
  ((liveVals l.meshes ++ l.canvas.deleted_meshes).map meshKey).Nodup ∧
  ∀ m ∈ liveVals l.meshes ++ l.canvas.deleted_meshes,
    meshKey m < l.canvas.next_name

/-- The composite layouter invariant for the slideshow run: the slot/free
list invariant for the held handles, exact coverage (no slot is populated
beyond the held handles), and allocation freshness. -/
def LayInv (l : Layouter) (live : List Handle) : Prop :=
  MatInv l live ∧ MeshInv l live ∧
  Covers l.materials (idsOfMat live) ∧ Covers l.meshes (idsOfMesh live) ∧
  FreshMat l ∧ FreshMesh l

theorem fresh_step {α : Type} (key : α → Nat) (new old : List α) (v : α)
    (n n' : Nat) (hperm : List.Perm new (v :: old)) (hv : n ≤ key v)
    (hv2 : key v < n') (hmono : n ≤ n') (hnodup : (old.map key).Nodup)
    (hbound : ∀ m ∈ old, key m < n) :
    (new.map key).Nodup ∧ ∀ m ∈ new, key m < n' := by
  constructor
  · refine ((hperm.map key).nodup_iff).mpr ?_
    rw [List.map_cons]
    refine List.nodup_cons.mpr ⟨?_, hnodup⟩
    intro hmem
    obtain ⟨x, hx, he⟩ := List.mem_map.mp hmem
    have := hbound x hx
    omega
  · intro m hm
    rcases List.mem_cons.mp (hperm.mem_iff.mp hm) with he | hmem
    · subst he
      exact hv2
    · exact lt_of_lt_of_le (hbound m hmem) hmono

theorem fresh_perm {α : Type} (key : α → Nat) (new old : List α) (n : Nat)
    (hperm : List.Perm new old) (hnodup : (old.map key).Nodup)
    (hbound : ∀ m ∈ old, key m < n) :
    (new.map key).Nodup ∧ ∀ m ∈ new, key m < n :=
  ⟨((hperm.map key).nodup_iff).mpr hnodup,
    fun m hm => hbound m (hperm.mem_iff.mp hm)⟩

theorem freshMat_transport (l l' : Layouter)
    (e1 : l'.materials = l.materials)
    (e2 : l'.canvas.deleted_materials = l.canvas.deleted_materials)
    (e3 : l.canvas.next_name ≤ l'.canvas.next_name) (hf : FreshMat l) :
    FreshMat l' := by
  unfold FreshMat
  rw [e1, e2]
  exact ⟨hf.1, fun m hm => lt_of_lt_of_le (hf.2 m hm) e3⟩

theorem freshMesh_transport (l l' : Layouter) (e1 : l'.meshes = l.meshes)
    (e2 : l'.canvas.deleted_meshes = l.canvas.deleted_meshes)
    (e3 : l.canvas.next_name ≤ l'.canvas.next_name) (hf : FreshMesh l) :
    FreshMesh l' := by
  unfold FreshMesh
  rw [e1, e2]
  exact ⟨hf.1, fun m hm => lt_of_lt_of_le (hf.2 m hm) e3⟩

theorem free_material_side_canvas_fields (l : Layouter) (h : Handle) :
    (free_material_side l h).canvas.deleted_meshes =
      l.canvas.deleted_meshes ∧
    (free_material_side l h).canvas.next_name = l.canvas.next_name := by
  cases hm : h.material_id with
  | none => simp [free_material_side, hm]
  | some id =>
    cases hs : slot? l.materials id with
    | none => simp [free_material_side, hm, hs]
    | some m => simp [free_material_side, hm, hs, Canvas.delete_material]

theorem free_mesh_side_canvas_fields (l : Layouter) (h : Handle) :
    (free_mesh_side l h).canvas.deleted_materials =
      l.canvas.deleted_materials ∧
    (free_mesh_side l h).canvas.next_name = l.canvas.next_name := by
  cases hm : h.mesh_id with
  | none => simp [free_mesh_side, hm]
  | some id =>
    cases hs : slot? l.meshes id with
    | none => simp [free_mesh_side, hm, hs]
    | some m => simp [free_mesh_side, hm, hs, Canvas.delete_mesh]

theorem freshMat_free_material_side (l : Layouter) (h : Handle)
    (hf : FreshMat l) : FreshMat (free_material_side l h) := by
  cases hmid : h.material_id with
  | none =>
    have he : free_material_side l h = l := by simp [free_material_side, hmid]
    rw [he]
    exact hf
  | some id =>
    cases hs : slot? l.materials id with
    | none =>
      have he : free_material_side l h = l := by
        simp [free_material_side, hmid, hs]
      rw [he]
      exact hf
    | some m =>
      have hres : free_material_side l h =
          { l with canvas := l.canvas.delete_material m,
                   materials := l.materials.set id none,
                   free_material_ids := id :: l.free_material_ids } := by
        simp [free_material_side, hmid, hs]
      rw [hres]
      have hperm0 := liveVals_set_none_perm l.materials id m hs
      have hperm : List.Perm
          (liveVals (l.materials.set id none) ++
            (l.canvas.deleted_materials ++ [m]))
          (liveVals l.materials ++ l.canvas.deleted_materials) := by
        rw [← List.append_assoc]
        refine (List.perm_append_singleton m _).trans ?_
        exact hperm0.symm.append_right _
      unfold FreshMat
      exact fresh_perm matKey _ _ _ hperm hf.1 hf.2

theorem freshMesh_free_mesh_side (l : Layouter) (h : Handle)
    (hf : FreshMesh l) : FreshMesh (free_mesh_side l h) := by
  cases hmid : h.mesh_id with
  | none =>
    have he : free_mesh_side l h = l := by simp [free_mesh_side, hmid]
    rw [he]
    exact hf
  | some id =>
    cases hs : slot? l.meshes id with
    | none =>
      have he : free_mesh_side l h = l := by simp [free_mesh_side, hmid, hs]
      rw [he]
      exact hf
    | some m =>
      have hres : free_mesh_side l h =
          { l with canvas := l.canvas.delete_mesh m,
                   meshes := l.meshes.set id none,
                   free_mesh_ids := id :: l.free_mesh_ids } := by
        simp [free_mesh_side, hmid, hs]
      rw [hres]
      have hperm0 := liveVals_set_none_perm l.meshes id m hs
      have hperm : List.Perm
          (liveVals (l.meshes.set id none) ++
            (l.canvas.deleted_meshes ++ [m]))
          (liveVals l.meshes ++ l.canvas.deleted_meshes) := by
        rw [← List.append_assoc]
        refine (List.perm_append_singleton m _).trans ?_
        exact hperm0.symm.append_right _
      unfold FreshMesh
      exact fresh_perm meshKey _ _ _ hperm hf.1 hf.2

theorem free_material_side_covers (l : Layouter) (pre post : List Handle)
    (h : Handle) (hc : Covers l.materials (idsOfMat (pre ++ h :: post))) :
    Covers (free_material_side l h).materials (idsOfMat (pre ++ post)) := by
  cases hmid : h.material_id with
  | none =>
    have he : free_material_side l h = l := by simp [free_material_side, hmid]
    have hids : idsOfMat (pre ++ post) = idsOfMat (pre ++ h :: post) := by
      rw [idsOfMat_append, idsOfMat_append, idsOfMat_cons_none h post hmid]
    rw [he, hids]
    exact hc
  | some id =>
    have hids : idsOfMat (pre ++ h :: post) =
        idsOfMat pre ++ id :: idsOfMat post := by
      rw [idsOfMat_append, idsOfMat_cons_some h post id hmid]
    have hc2 : Covers l.materials
        (id :: (idsOfMat pre ++ idsOfMat post)) :=
      covers_perm _ _ _ List.perm_middle (hids ▸ hc)
    rw [idsOfMat_append]
    cases hs : slot? l.materials id with
    | none =>
      have he : free_material_side l h = l := by
        simp [free_material_side, hmid, hs]
      rw [he]
      exact covers_id_empty _ _ _ hs hc2
    | some m =>
      have hres : (free_material_side l h).materials =
          l.materials.set id none := by
        simp [free_material_side, hmid, hs]
      rw [hres]
      exact covers_set_none _ _ _ hc2

theorem free_mesh_side_covers (l : Layouter) (pre post : List Handle)
    (h : Handle) (hc : Covers l.meshes (idsOfMesh (pre ++ h :: post))) :
    Covers (free_mesh_side l h).meshes (idsOfMesh (pre ++ post)) := by
  cases hmid : h.mesh_id with
  | none =>
    have he : free_mesh_side l h = l := by simp [free_mesh_side, hmid]
    have hids : idsOfMesh (pre ++ post) = idsOfMesh (pre ++ h :: post) := by
      rw [idsOfMesh_append, idsOfMesh_append, idsOfMesh_cons_none h post hmid]
    rw [he, hids]
    exact hc
  | some id =>
    have hids : idsOfMesh (pre ++ h :: post) =
        idsOfMesh pre ++ id :: idsOfMesh post := by
      rw [idsOfMesh_append, idsOfMesh_cons_some h post id hmid]
    have hc2 : Covers l.meshes
        (id :: (idsOfMesh pre ++ idsOfMesh post)) :=
      covers_perm _ _ _ List.perm_middle (hids ▸ hc)
    rw [idsOfMesh_append]
    cases hs : slot? l.meshes id with
    | none =>
      have he : free_mesh_side l h = l := by simp [free_mesh_side, hmid, hs]
      rw [he]
      exact covers_id_empty _ _ _ hs hc2
    | some m =>
      have hres : (free_mesh_side l h).meshes = l.meshes.set id none := by
        simp [free_mesh_side, hmid, hs]
      rw [hres]
      exact covers_set_none _ _ _ hc2

/-- Freeing one held handle preserves the whole composite invariant. -/
theorem free_handle_full (l : Layouter) (pre post : List Handle) (h : Handle)
    (hi : LayInv l (pre ++ h :: post)) :
    LayInv (l.free_handle h) (pre ++ post) := by
  obtain ⟨hA1, hA2, hC1, hC2, hF1, hF2⟩ := hi
  have e1 := free_material_side_mesh_fields l h
  have e2 := free_material_side_canvas_fields l h
  have a1 : MatInv (free_material_side l h) (pre ++ post) :=
    free_material_side_inv l pre post h hA1
  have a2 : MeshInv (free_material_side l h) (pre ++ h :: post) :=
    meshInv_transport l _ _ e1.1 e1.2 hA2
  have c1 : Covers (free_material_side l h).materials
      (idsOfMat (pre ++ post)) :=
    free_material_side_covers l pre post h hC1
  have c2 : Covers (free_material_side l h).meshes
      (idsOfMesh (pre ++ h :: post)) := by
    rw [e1.1]
    exact hC2
  have f1 : FreshMat (free_material_side l h) :=
    freshMat_free_material_side l h hF1
  have f2 : FreshMesh (free_material_side l h) :=
    freshMesh_transport l _ e1.1 e2.1 (le_of_eq e2.2.symm) hF2
  have e3 := free_mesh_side_mat_fields (free_material_side l h) h
  have e4 := free_mesh_side_canvas_fields (free_material_side l h) h
  refine ⟨?_, ?_, ?_, ?_, ?_, ?_⟩
  · exact matInv_transport _ _ _ e3.1 e3.2 a1
  · exact free_mesh_side_inv _ pre post h a2
  · rw [show (Layouter.free_handle l h).materials =
      (free_material_side l h).materials from e3.1]
    exact c1
  · exact free_mesh_side_covers _ pre post h c2
  · exact freshMat_transport _ _ e3.1 e4.1 (le_of_eq e4.2.symm) f1
  · exact freshMesh_free_mesh_side _ h f2

/-- Allocating a material slot preserves the composite invariant, given the
new material's identity is fresh. -/
theorem insert_material_full (l : Layouter) (live : List Handle)
    (v : GlMaterial) (h : Handle) (n0 : Nat)
    (hm : h.material_id = some (l.insert_material v).1)
    (hn : h.mesh_id = none) (hA1 : MatInv l live) (hA2 : MeshInv l live)
    (hC1 : Covers l.materials (idsOfMat live))
    (hC2 : Covers l.meshes (idsOfMesh live)) (hvlow : n0 ≤ matKey v)
    (hvhigh : matKey v < l.canvas.next_name)
    (hnodup : ((liveVals l.materials ++
      l.canvas.deleted_materials).map matKey).Nodup)
    (hbound : ∀ m ∈ liveVals l.materials ++ l.canvas.deleted_materials,
      matKey m < n0)
    (hmeshfresh : FreshMesh l) :
    LayInv (l.insert_material v).2 (h :: live) := by
  obtain ⟨ha1, ha2⟩ := insert_material_inv l live v h hm hn hA1 hA2
  have emesh := insert_material_mesh_fields l v
  refine ⟨ha1, ha2, ?_, ?_, ?_, ?_⟩
  · rw [idsOfMat_cons_some h live _ hm]
    cases hf : l.free_material_ids with
    | cons id rest =>
      have h1 : (l.insert_material v).1 = id := by
        simp [Layouter.insert_material, hf]
      have h2 : ((l.insert_material v).2).materials =
          l.materials.set id (some v) := by
        simp [Layouter.insert_material, hf]
      rw [h1, h2]
      exact covers_insert_set _ _ _ _ hC1
    | nil =>
      have h1 : (l.insert_material v).1 = l.materials.length := by
        simp [Layouter.insert_material, hf]
      have h2 : ((l.insert_material v).2).materials =
          l.materials ++ [some v] := by
        simp [Layouter.insert_material, hf]
      rw [h1, h2]
      exact covers_insert_append _ _ _ hC1
  · rw [emesh.1, idsOfMesh_cons_none h live hn]
    exact hC2
  · have ecanvas : ((l.insert_material v).2).canvas = l.canvas := by
      unfold Layouter.insert_material
      cases l.free_material_ids <;> rfl
    unfold FreshMat
    rw [ecanvas]
    cases hf : l.free_material_ids with
    | cons id rest =>
      have h2 : ((l.insert_material v).2).materials =
          l.materials.set id (some v) := by
        simp [Layouter.insert_material, hf]
      rw [h2]
      obtain ⟨hlt, hnone⟩ := hA1.1 id (by rw [hf]; exact List.mem_cons_self _ _)
      have hperm : List.Perm
          (liveVals (l.materials.set id (some v)) ++
            l.canvas.deleted_materials)
          (v :: (liveVals l.materials ++ l.canvas.deleted_materials)) :=
        (liveVals_set_some_perm l.materials id v hnone hlt).append_right _
      exact fresh_step matKey _ _ v n0 _ hperm hvlow hvhigh
        (le_of_lt (lt_of_le_of_lt hvlow hvhigh)) hnodup hbound
    | nil =>
      have h2 : ((l.insert_material v).2).materials =
          l.materials ++ [some v] := by
        simp [Layouter.insert_material, hf]
      rw [h2, liveVals_append_some, List.append_assoc]
      have hperm : List.Perm
          (liveVals l.materials ++ ([v] ++ l.canvas.deleted_materials))
          (v :: (liveVals l.materials ++ l.canvas.deleted_materials)) :=
        List.perm_middle
      exact fresh_step matKey _ _ v n0 _ hperm hvlow hvhigh
        (le_of_lt (lt_of_le_of_lt hvlow hvhigh)) hnodup hbound
  · have ecanvas : ((l.insert_material v).2).canvas = l.canvas := by
      unfold Layouter.insert_material
      cases l.free_material_ids <;> rfl
    exact freshMesh_transport l _ emesh.1 (by rw [ecanvas])
      (le_of_eq (by rw [ecanvas])) hmeshfresh

/-- Allocating a mesh slot preserves the composite invariant. -/
theorem insert_mesh_full (l : Layouter) (live : List Handle) (v : GlMesh)
    (h : Handle) (n0 : Nat) (hm : h.mesh_id = some (l.insert_mesh v).1)
    (hn : h.material_id = none) (hA1 : MatInv l live) (hA2 : MeshInv l live)
    (hC1 : Covers l.materials (idsOfMat live))
    (hC2 : Covers l.meshes (idsOfMesh live)) (hvlow : n0 ≤ meshKey v)
    (hvhigh : meshKey v < l.canvas.next_name)
    (hnodup : ((liveVals l.meshes ++
      l.canvas.deleted_meshes).map meshKey).Nodup)
    (hbound : ∀ m ∈ liveVals l.meshes ++ l.canvas.deleted_meshes,
      meshKey m < n0)
    (hmatfresh : FreshMat l) :
    LayInv (l.insert_mesh v).2 (h :: live) := by
  obtain ⟨ha1, ha2⟩ := insert_mesh_inv l live v h hm hn hA1 hA2
  have emat := insert_mesh_mat_fields l v
  refine ⟨ha1, ha2, ?_, ?_, ?_, ?_⟩
  · rw [emat.1, idsOfMat_cons_none h live hn]
    exact hC1
  · rw [idsOfMesh_cons_some h live _ hm]
    cases hf : l.free_mesh_ids with
    | cons id rest =>
      have h1 : (l.insert_mesh v).1 = id := by
        simp [Layouter.insert_mesh, hf]
      have h2 : ((l.insert_mesh v).2).meshes =
          l.meshes.set id (some v) := by
        simp [Layouter.insert_mesh, hf]
      rw [h1, h2]
      exact covers_insert_set _ _ _ _ hC2
    | nil =>
      have h1 : (l.insert_mesh v).1 = l.meshes.length := by
        simp [Layouter.insert_mesh, hf]
      have h2 : ((l.insert_mesh v).2).meshes = l.meshes ++ [some v] := by
        simp [Layouter.insert_mesh, hf]
      rw [h1, h2]
      exact covers_insert_append _ _ _ hC2
  · have ecanvas : ((l.insert_mesh v).2).canvas = l.canvas := by
      unfold Layouter.insert_mesh
      cases l.free_mesh_ids <;> rfl
    exact freshMat_transport l _ emat.1 (by rw [ecanvas])
      (le_of_eq (by rw [ecanvas])) hmatfresh
  · have ecanvas : ((l.insert_mesh v).2).canvas = l.canvas := by
      unfold Layouter.insert_mesh
      cases l.free_mesh_ids <;> rfl
    unfold FreshMesh
    rw [ecanvas]
    cases hf : l.free_mesh_ids with
    | cons id rest =>
      have h2 : ((l.insert_mesh v).2).meshes =
          l.meshes.set id (some v) := by
        simp [Layouter.insert_mesh, hf]
      rw [h2]
      obtain ⟨hlt, hnone⟩ := hA2.1 id (by rw [hf]; exact List.mem_cons_self _ _)
      have hperm : List.Perm
          (liveVals (l.meshes.set id (some v)) ++ l.canvas.deleted_meshes)
          (v :: (liveVals l.meshes ++ l.canvas.deleted_meshes)) :=
        (liveVals_set_some_perm l.meshes id v hnone hlt).append_right _
      exact fresh_step meshKey _ _ v n0 _ hperm hvlow hvhigh
        (le_of_lt (lt_of_le_of_lt hvlow hvhigh)) hnodup hbound
    | nil =>
      have h2 : ((l.insert_mesh v).2).meshes = l.meshes ++ [some v] := by
        simp [Layouter.insert_mesh, hf]
      rw [h2, liveVals_append_some, List.append_assoc]
      have hperm : List.Perm
          (liveVals l.meshes ++ ([v] ++ l.canvas.deleted_meshes))
          (v :: (liveVals l.meshes ++ l.canvas.deleted_meshes)) :=
        List.perm_middle
      exact fresh_step meshKey _ _ v n0 _ hperm hvlow hvhigh
        (le_of_lt (lt_of_le_of_lt hvlow hvhigh)) hnodup hbound

theorem tableInv_perm {α : Type} (slots : List (Option α))
    (free_ids ids ids' : List Nat) (hperm : List.Perm ids ids')
    (hinv : TableInv slots free_ids ids) : TableInv slots free_ids ids' :=
  ⟨hinv.1, hinv.2.1, fun j hj => hinv.2.2.1 j (hperm.mem_iff.mpr hj),
    (hperm.nodup_iff).mp hinv.2.2.2⟩

/-- The composite invariant only depends on the live-handle list up to
permutation. -/
theorem layInv_perm (l : Layouter) (live live' : List Handle)
    (hperm : List.Perm live live') (hi : LayInv l live) : LayInv l live' := by
  obtain ⟨hA1, hA2, hC1, hC2, hF1, hF2⟩ := hi
  have hp1 : List.Perm (idsOfMat live) (idsOfMat live') :=
    hperm.filterMap Handle.material_id
  have hp2 : List.Perm (idsOfMesh live) (idsOfMesh live') :=
    hperm.filterMap Handle.mesh_id
  exact ⟨tableInv_perm _ _ _ _ hp1 hA1, tableInv_perm _ _ _ _ hp2 hA2,
    covers_perm _ _ _ hp1 hC1, covers_perm _ _ _ hp2 hC2, hF1, hF2⟩

/-- Loading a photo preserves the composite invariant (the new three-plane
texture is created with fresh names). -/
theorem load_photo_full (l : Layouter) (live : List Handle) (f : Frame)
    (hi : LayInv l live) :
    LayInv (l.load_photo f).2 ((l.load_photo f).1 :: live) := by
  obtain ⟨hA1, hA2, hC1, hC2, hF1, hF2⟩ := hi
  exact insert_material_full
    { l with canvas := (l.canvas.create_yuv_texture (f.mb_width * 16)
        (f.mb_height * 16) 2).2 }
    live
    (l.canvas.create_yuv_texture (f.mb_width * 16) (f.mb_height * 16) 2).1
    (l.load_photo f).1 l.canvas.next_name rfl rfl hA1 hA2 hC1 hC2
    (le_refl _)
    (by show l.canvas.next_name < l.canvas.next_name + 3
        omega)
    hF1.1 hF1.2
    (freshMesh_transport l _ rfl rfl (Nat.le_add_right _ 3) hF2)

/-- Creating a text mesh preserves the composite invariant. -/
theorem create_text_full (l : Layouter) (live : List Handle) (t : List Nat)
    (hi : LayInv l live) :
    LayInv (l.create_text t).2 ((l.create_text t).1 :: live) := by
  obtain ⟨hA1, hA2, hC1, hC2, hF1, hF2⟩ := hi
  exact insert_mesh_full
    { l with canvas :=
        (l.canvas.create_mesh (text_verts l.font t ⟨0, 0⟩ [])).2 }
    live
    (l.canvas.create_mesh (text_verts l.font t ⟨0, 0⟩ [])).1
    (l.create_text t).1 l.canvas.next_name rfl rfl hA1 hA2 hC1 hC2
    (le_refl _)
    (by show l.canvas.next_name < l.canvas.next_name + 2
        omega)
    hF2.1 hF2.2
    (freshMat_transport l _ rfl rfl (Nat.le_add_right _ 2) hF1)

theorem create_multiline_text_full (l : Layouter) (live : List Handle)
    (t : List Nat) (w : ℚ) (hi : LayInv l live) :
    LayInv (l.create_multiline_text t w).2
      ((l.create_multiline_text t w).1 :: live) :=
  create_text_full l live t hi

theorem finish_transition_full (s : SlideShowScene) (l : Layouter)
    (hi : LayInv l (heldHandles s)) :
    LayInv ((s.finish_transition l).2)
      (heldHandles ((s.finish_transition l).1)) := by
  cases hst : s.state with
  | Idle =>
    have he : s.finish_transition l = ({ s with tick_count := 0 }, l) := by
      simp [SlideShowScene.finish_transition, hst]
    rw [he]
    have hh : heldHandles ({ s with tick_count := 0 } : SlideShowScene) =
        heldHandles s := by
      simp [heldHandles, hst]
    rw [hh]
    exact hi
  | Static p =>
    have he : s.finish_transition l = ({ s with tick_count := 0 }, l) := by
      simp [SlideShowScene.finish_transition, hst]
    rw [he]
    have hh : heldHandles ({ s with tick_count := 0 } : SlideShowScene) =
        heldHandles s := by
      simp [heldHandles, hst]
    rw [hh]
    exact hi
  | Transitioning f t d =>
    have he : s.finish_transition l =
        ({ s with tick_count := 0, state := .Static t },
          (l.free_handle f.photo).free_handle f.text) := by
      simp [SlideShowScene.finish_transition, hst]
    rw [he]
    have hh : heldHandles
        ({ s with tick_count := 0, state := .Static t } : SlideShowScene) =
        [t.photo, t.text] := by
      simp [heldHandles]
    rw [hh]
    have hi' : LayInv l ([t.text, t.photo] ++ f.photo :: [f.text]) := by
      have : heldHandles s = [t.text, t.photo, f.photo, f.text] := by
        simp [heldHandles, hst]
      rw [this] at hi
      exact hi
    have h1 := free_handle_full l [t.text, t.photo] [f.text] f.photo hi'
    have h2 := free_handle_full (l.free_handle f.photo) [t.text, t.photo] []
      f.text h1
    refine layInv_perm _ _ _ ?_ h2
    exact List.Perm.swap t.photo t.text []

theorem finish_not_transitioning (s : SlideShowScene) (l : Layouter)
    (f t : PhotoState) (d : Nat) :
    ((s.finish_transition l).1).state ≠ .Transitioning f t d := by
  cases hst : s.state <;> simp [SlideShowScene.finish_transition, hst]

theorem start_transition_load_full (s1 : SlideShowScene) (n : Nat)
    (ctx : Context) (l1 : Layouter) (hi : LayInv l1 (heldHandles s1))
    (hnt : ∀ f t d, s1.state ≠ SlideshowState.Transitioning f t d) :
    LayInv (start_transition_load s1 n ctx l1).2.2
      (heldHandles (start_transition_load s1 n ctx l1).2.1) := by
  unfold start_transition_load
  dsimp only
  cases hf : ctx.find_photo (s1.photos.getD n 0) with
  | none => exact hi
  | some photo =>
    dsimp only
    have h1 := load_photo_full l1 (heldHandles s1) photo.frame hi
    have h2 := create_multiline_text_full (l1.load_photo photo.frame).2
      ((l1.load_photo photo.frame).1 :: heldHandles s1)
      ((photo.title.bind List.head?).getD s1.title)
      ((6 : ℚ) / 10 / (5 / 100)) h1
    cases hst : s1.state with
    | Idle =>
      have hlive : heldHandles s1 = [] := by simp [heldHandles, hst]
      rw [hlive] at h2
      refine layInv_perm _ _ _ ?_ h2
      exact List.Perm.swap _ _ []
    | Static p =>
      have hlive : heldHandles s1 = [p.photo, p.text] := by
        simp [heldHandles, hst]
      rw [hlive] at h2
      exact h2
    | Transitioning f t d => exact absurd hst (hnt f t d)

theorem start_transition_full (s : SlideShowScene) (n : Nat) (ctx : Context)
    (l : Layouter) (hi : LayInv l (heldHandles s)) :
    LayInv ((s.start_transition n ctx l).2.2)
      (heldHandles ((s.start_transition n ctx l).2.1)) := by
  have hfin := finish_transition_full s l hi
  exact start_transition_load_full ((s.finish_transition l).1) n ctx
    ((s.finish_transition l).2) hfin
    (fun f t d => finish_not_transitioning s l f t d)

theorem update_full (s : SlideShowScene) (ev : SceneEvent) (ctx : Context)
    (l : Layouter) (hi : LayInv l (heldHandles s)) :
    LayInv ((s.update ev ctx l).2.2)
      (heldHandles ((s.update ev ctx l).2.1)) := by
  cases ev with
  | Enter =>
    unfold SlideShowScene.update
    dsimp only
    cases (s.start_transition 0 ctx l).1 with
    | none => exact start_transition_full s 0 ctx l hi
    | some b => exact start_transition_full s 0 ctx l hi
  | Exit => exact hi
  | TimeTick =>
    unfold SlideShowScene.update
    dsimp only
    cases hst : s.state with
    | Idle =>
      have hh : heldHandles s = [] := by simp [heldHandles, hst]
      rw [hh] at hi
      exact hi
    | Static p =>
      dsimp only
      have hh : heldHandles s = [p.photo, p.text] := by
        simp [heldHandles, hst]
      rw [hh] at hi
      by_cases hge : s.tick_count + 1 ≥ 150
      · rw [if_pos hge]
        exact start_transition_full
          ⟨s.photos, s.title, s.tick_count + 1, s.index, .Static p⟩ _ ctx l hi
      · rw [if_neg hge]
        exact hi
    | Transitioning f t d =>
      dsimp only
      have hh : heldHandles s = [t.text, t.photo, f.photo, f.text] := by
        simp [heldHandles, hst]
      rw [hh] at hi
      by_cases hge : s.tick_count + 1 ≥ d
      · rw [if_pos hge]
        exact finish_transition_full
          ⟨s.photos, s.title, s.tick_count + 1, s.index,
            .Transitioning f t d⟩ l hi
      · rw [if_neg hge]
        exact hi
  | User u =>
    cases u with
    | Home =>
      unfold SlideShowScene.update
      dsimp only
      cases (s.start_transition 0 ctx l).1 with
      | none => exact start_transition_full s 0 ctx l hi
      | some b => exact start_transition_full s 0 ctx l hi
    | Exit => exact hi
    | Next => exact start_transition_full s s.next_index ctx l hi
    | Previous => exact start_transition_full s s.prev_index ctx l hi
  | System sys => exact hi

theorem runEvents_full (ctx : Context) (evs : List SceneEvent)
    (sl : SlideShowScene × Layouter)
    (hi : LayInv sl.2 (heldHandles sl.1)) :
    LayInv (runEvents ctx sl evs).2
      (heldHandles (runEvents ctx sl evs).1) := by
  induction evs generalizing sl with
  | nil => exact hi
  | cons ev evs ih =>
    show LayInv (runEvents ctx (runScene ctx sl ev) evs).2
      (heldHandles (runEvents ctx (runScene ctx sl ev) evs).1)
    exact ih (runScene ctx sl ev) (update_full sl.1 ev ctx sl.2 hi)

theorem layInv_init (canvas : Canvas) (font : Font)
    (hc1 : canvas.deleted_materials = [])
    (hc2 : canvas.deleted_meshes = []) (s : SlideShowScene)
    (hs : s.state = .Idle) :
    LayInv (Layouter.new canvas font) (heldHandles s) := by
  have hh : heldHandles s = [] := by simp [heldHandles, hs]
  rw [hh]
  refine ⟨?_, ?_, ?_, ?_, ?_, ?_⟩
  · unfold MatInv TableInv
    refine ⟨?_, ?_, ?_, ?_⟩ <;> simp [Layouter.new, idsOfMat]
  · unfold MeshInv TableInv
    refine ⟨?_, ?_, ?_, ?_⟩ <;> simp [Layouter.new, idsOfMesh]
  · intro j hj
    simp [Layouter.new, slot?] at hj
  · intro j hj
    simp [Layouter.new, slot?] at hj
  · unfold FreshMat
    constructor
    · simp [Layouter.new, liveVals, Canvas.create_texture, Canvas.create_mesh,
        hc1]
    · intro m hm
      simp [Layouter.new, liveVals, Canvas.create_texture, Canvas.create_mesh,
        hc1] at hm
  · unfold FreshMesh
    constructor
    · simp [Layouter.new, liveVals, Canvas.create_texture, Canvas.create_mesh,
        hc2]
    · intro m hm
      simp [Layouter.new, liveVals, Canvas.create_texture, Canvas.create_mesh,
        hc2] at hm

theorem free_material_side_deleted_mono (l : Layouter) (h : Handle)
    (x : GlMaterial) (hx : x ∈ l.canvas.deleted_materials) :
    x ∈ (free_material_side l h).canvas.deleted_materials := by
  cases hm : h.material_id with
  | none => simpa [free_material_side, hm] using hx
  | some id =>
    cases hs : slot? l.materials id with
    | none => simpa [free_material_side, hm, hs] using hx
    | some m =>
      simp [free_material_side, hm, hs, Canvas.delete_material]
      exact Or.inl hx

theorem free_mesh_side_deleted_mono (l : Layouter) (h : Handle) (x : GlMesh)
    (hx : x ∈ l.canvas.deleted_meshes) :
    x ∈ (free_mesh_side l h).canvas.deleted_meshes := by
  cases hm : h.mesh_id with
  | none => simpa [free_mesh_side, hm] using hx
  | some id =>
    cases hs : slot? l.meshes id with
    | none => simpa [free_mesh_side, hm, hs] using hx
    | some m =>
      simp [free_mesh_side, hm, hs, Canvas.delete_mesh]
      exact Or.inl hx

theorem load_photo_logs (l : Layouter) (f : Frame) :
    ((l.load_photo f).2).canvas.deleted_materials =
      l.canvas.deleted_materials ∧
    ((l.load_photo f).2).canvas.deleted_meshes =
      l.canvas.deleted_meshes := by
  unfold Layouter.load_photo Layouter.insert_material
  dsimp only
  cases l.free_material_ids <;> exact ⟨rfl, rfl⟩

theorem create_text_logs (l : Layouter) (t : List Nat) :
    ((l.create_text t).2).canvas.deleted_materials =
      l.canvas.deleted_materials ∧
    ((l.create_text t).2).canvas.deleted_meshes =
      l.canvas.deleted_meshes := by
  unfold Layouter.create_text Layouter.insert_mesh
  dsimp only
  cases l.free_mesh_ids <;> exact ⟨rfl, rfl⟩

theorem start_transition_load_logs (s1 : SlideShowScene) (n : Nat)
    (ctx : Context) (l1 : Layouter) :
    ((start_transition_load s1 n ctx l1).2.2).canvas.deleted_materials =
      l1.canvas.deleted_materials ∧
    ((start_transition_load s1 n ctx l1).2.2).canvas.deleted_meshes =
      l1.canvas.deleted_meshes := by
  unfold start_transition_load
  dsimp only
  cases hf : ctx.find_photo (s1.photos.getD n 0) with
  | none => exact ⟨rfl, rfl⟩
  | some photo =>
    dsimp only
    have h1 := load_photo_logs l1 photo.frame
    have h2 := create_text_logs (l1.load_photo photo.frame).2
      ((photo.title.bind List.head?).getD s1.title)
    exact ⟨h2.1.trans h1.1, h2.2.trans h1.2⟩

/-- Interrupting an in-flight transition with `start_transition` deletes the
`from` state's photo material and caption mesh (they land in the GL delete
logs of the resulting layouter). -/
theorem start_transition_frees_from (s' : SlideShowScene) (l' : Layouter)
    (f t : PhotoState) (d : Nat) (pid tid : Nat) (pm : GlMaterial)
    (tm : GlMesh) (n : Nat) (ctx : Context)
    (hst : s'.state = .Transitioning f t d)
    (hpm : f.photo.material_id = some pid)
    (hps : slot? l'.materials pid = some pm)
    (htm : f.text.mesh_id = some tid)
    (hts : slot? l'.meshes tid = some tm) :
    pm ∈ ((s'.start_transition n ctx l').2.2).canvas.deleted_materials ∧
    tm ∈ ((s'.start_transition n ctx l').2.2).canvas.deleted_meshes := by
  have hfin : s'.finish_transition l' =
      ({ s' with tick_count := 0, state := .Static t },
        (l'.free_handle f.photo).free_handle f.text) := by
    simp [SlideShowScene.finish_transition, hst]
  have hlogs := start_transition_load_logs ((s'.finish_transition l').1) n
    ctx ((s'.finish_transition l').2)
  have hred : (s'.start_transition n ctx l').2.2 =
      (start_transition_load ((s'.finish_transition l').1) n ctx
        ((s'.finish_transition l').2)).2.2 := rfl
  rw [hred, hlogs.1, hlogs.2, hfin]
  -- the finish layouter: free f.photo (material + mesh sides), then f.text
  have hA : pm ∈ ((free_material_side l' f.photo)).canvas.deleted_materials := by
    simp [free_material_side, hpm, hps, Canvas.delete_material]
  have hAmesh : (free_material_side l' f.photo).meshes = l'.meshes :=
    (free_material_side_mesh_fields l' f.photo).1
  -- after the full free of f.photo the material log still contains pm
  have hB : pm ∈ (l'.free_handle f.photo).canvas.deleted_materials := by
    rw [show (l'.free_handle f.photo).canvas.deleted_materials =
      (free_material_side l' f.photo).canvas.deleted_materials from
      (free_mesh_side_canvas_fields _ f.photo).1]
    exact hA
  -- and the mesh slot tid either still holds tm or tm is already logged
  have hC : slot? (l'.free_handle f.photo).meshes tid = some tm ∨
      tm ∈ (l'.free_handle f.photo).canvas.deleted_meshes := by
    unfold Layouter.free_handle
    cases hm : f.photo.mesh_id with
    | none =>
      left
      rw [show (free_mesh_side (free_material_side l' f.photo)
        f.photo).meshes = (free_material_side l' f.photo).meshes from by
          simp [free_mesh_side, hm], hAmesh]
      exact hts
    | some j =>
      cases hsj : slot? (free_material_side l' f.photo).meshes j with
      | none =>
        left
        rw [show (free_mesh_side (free_material_side l' f.photo)
          f.photo).meshes = (free_material_side l' f.photo).meshes from by
            simp [free_mesh_side, hm, hsj], hAmesh]
        exact hts
      | some mj =>
        by_cases hj : j = tid
        · right
          subst hj
          have : mj = tm := by
            rw [hAmesh] at hsj
            rw [hts] at hsj
            exact (Option.some.injEq _ _ ▸ hsj.symm :)
          subst this
          simp [free_mesh_side, hm, hsj, Canvas.delete_mesh]
        · left
          rw [show (free_mesh_side (free_material_side l' f.photo)
            f.photo).meshes = (free_material_side l' f.photo).meshes.set
              j none from by simp [free_mesh_side, hm, hsj]]
          rw [slot?_set_ne _ j tid none hj, hAmesh]
          exact hts
  constructor
  · -- pm survives the free of f.text
    rw [show ((l'.free_handle f.photo).free_handle f.text).canvas.deleted_materials =
      (free_material_side (l'.free_handle f.photo)
        f.text).canvas.deleted_materials from
      (free_mesh_side_canvas_fields _ f.text).1]
    exact free_material_side_deleted_mono _ f.text pm hB
  · -- tm is deleted by the free of f.text (or already was)
    rcases hC with hslot | hmem
    · have hslot2 : slot? (free_material_side (l'.free_handle f.photo)
          f.text).meshes tid = some tm := by
        rw [(free_material_side_mesh_fields _ f.text).1]
        exact hslot
      show tm ∈ (free_mesh_side (free_material_side
        (l'.free_handle f.photo) f.text) f.text).canvas.deleted_meshes
      simp [free_mesh_side, htm, hslot2, Canvas.delete_mesh]
    · show tm ∈ (free_mesh_side (free_material_side
        (l'.free_handle f.photo) f.text) f.text).canvas.deleted_meshes
      refine free_mesh_side_deleted_mono _ f.text tm ?_
      rw [(free_material_side_canvas_fields _ f.text).1]
      exact hmem

theorem new_state_idle (photos title : List Nat) (s0 : SlideShowScene)
    (h : SlideShowScene.new photos title = .ok s0) : s0.state = .Idle := by
  unfold SlideShowScene.new at h
  by_cases he : photos.isEmpty
  · rw [if_pos he] at h
    exact absurd h (by simp)
  · rw [if_neg he] at h
    cases h
    rfl

theorem update_home_layouter (s' : SlideShowScene) (ctx : Context)
    (l' : Layouter) :
    (s'.update (.User .Home) ctx l').2.2 =
      (s'.start_transition 0 ctx l').2.2 := by
  unfold SlideShowScene.update
  dsimp only
  cases (s'.start_transition 0 ctx l').1 <;> rfl

/-- Claim C5: over any event run from a freshly constructed slideshow, the
GL delete logs contain no duplicates — no photo material or caption mesh is
ever freed twice — and a slot is populated exactly when the current scene
state holds a handle to it, so nothing outside the held handles is left
allocated; and when a `Transitioning` state receives a Next, Previous or
Home navigation event, the in-flight transition is finalized immediately:
the `from` state's photo material and caption mesh are deleted before the
new transition starts. -/
theorem slideshow_frees_from_exactly_once (canvas : Canvas) (font : Font)
    (photos title : List Nat) (ctx : Context) (evs : List SceneEvent)
    (s0 : SlideShowScene) (qmat qmesh : Nat)
    (hnew : SlideShowScene.new photos title = .ok s0)
    (hc1 : canvas.deleted_materials = [])
    (hc2 : canvas.deleted_meshes = []) (s' : SlideShowScene) (l' : Layouter)
    (f t : PhotoState) (d : Nat) (pid tid : Nat) (pm : GlMaterial)
    (tm : GlMesh) (ctx' : Context)
    (hst : s'.state = .Transitioning f t d)
    (hpm : f.photo.material_id = some pid)
    (hps : slot? l'.materials pid = some pm)
    (htm : f.text.mesh_id = some tid)
    (hts : slot? l'.meshes tid = some tm) :
    ((runEvents ctx (s0, Layouter.new canvas font)
      evs).2.canvas.deleted_materials).Nodup ∧
    ((runEvents ctx (s0, Layouter.new canvas font)
      evs).2.canvas.deleted_meshes).Nodup ∧
    ((slot? (runEvents ctx (s0, Layouter.new canvas font) evs).2.materials
        qmat).isSome = true ↔
      qmat ∈ idsOfMat (heldHandles
        (runEvents ctx (s0, Layouter.new canvas font) evs).1)) ∧
    ((slot? (runEvents ctx (s0, Layouter.new canvas font) evs).2.meshes
        qmesh).isSome = true ↔
      qmesh ∈ idsOfMesh (heldHandles
        (runEvents ctx (s0, Layouter.new canvas font) evs).1)) ∧
    pm ∈ ((s'.update (.User .Next) ctx'
      l').2.2).canvas.deleted_materials ∧
    tm ∈ ((s'.update (.User .Next) ctx' l').2.2).canvas.deleted_meshes ∧
    pm ∈ ((s'.update (.User .Previous) ctx'
      l').2.2).canvas.deleted_materials ∧
    tm ∈ ((s'.update (.User .Previous) ctx'
      l').2.2).canvas.deleted_meshes ∧
    pm ∈ ((s'.update (.User .Home) ctx'
      l').2.2).canvas.deleted_materials ∧
    tm ∈ ((s'.update (.User .Home) ctx' l').2.2).canvas.deleted_meshes := by
  have hinit := layInv_init canvas font hc1 hc2 s0
    (new_state_idle photos title s0 hnew)
  have hrun := runEvents_full ctx evs (s0, Layouter.new canvas font) hinit
  obtain ⟨hA1, hA2, hC1, hC2, hF1, hF2⟩ := hrun
  have hnext := start_transition_frees_from s' l' f t d pid tid pm tm
    s'.next_index ctx' hst hpm hps htm hts
  have hprev := start_transition_frees_from s' l' f t d pid tid pm tm
    s'.prev_index ctx' hst hpm hps htm hts
  have hhome := start_transition_frees_from s' l' f t d pid tid pm tm
    0 ctx' hst hpm hps htm hts
  refine ⟨?_, ?_, ⟨fun hq => hC1 qmat hq, fun hq => hA1.2.2.1 qmat hq⟩,
    ⟨fun hq => hC2 qmesh hq, fun hq => hA2.2.2.1 qmesh hq⟩,
    hnext.1, hnext.2, hprev.1, hprev.2, ?_, ?_⟩
  · have h := hF1.1
    rw [List.map_append] at h
    exact List.Nodup.of_map matKey (List.nodup_append.mp h).2.1
  · have h := hF2.1
    rw [List.map_append] at h
    exact List.Nodup.of_map meshKey (List.nodup_append.mp h).2.1
  · rw [update_home_layouter s' ctx' l']
    exact hhome.1
  · rw [update_home_layouter s' ctx' l']
    exact hhome.2

def c5_ctx : Context := ⟨[⟨⟨1, 1⟩, none⟩]⟩

def c5_from : PhotoState := ⟨0, ⟨some 0, none, 1⟩, ⟨none, some 0, 0⟩⟩

def c5_to : PhotoState := ⟨0, ⟨none, none, 1⟩, ⟨none, none, 0⟩⟩

def c5_scene : SlideShowScene := ⟨[0], [], 3, 0, .Transitioning c5_from c5_to 40⟩

/-- A layouter with one live photo material (slot 0) and one live caption
mesh (slot 0). -/
def c5_layouter : Layouter :=
  (((Layouter.new demo_canvas ⟨2, 2, []⟩).load_photo ⟨1, 1⟩).2.create_text
    []).2

def c5_run : SlideShowScene × Layouter :=
  runEvents c5_ctx (⟨[0], [], 0, 0, .Idle⟩, Layouter.new demo_canvas
    ⟨2, 2, []⟩) [.Enter, .TimeTick]

/-- Witness for `slideshow_frees_from_exactly_once`: a two-event run over a
one-photo catalogue, and an interrupted transition whose `from` handles
reference the live slots of `c5_layouter`. -/
theorem slideshow_frees_from_exactly_once_witness :
    (c5_run.2.canvas.deleted_materials).Nodup ∧
    (c5_run.2.canvas.deleted_meshes).Nodup ∧
    ((slot? c5_run.2.materials 0).isSome = true ↔
      0 ∈ idsOfMat (heldHandles c5_run.1)) ∧
    ((slot? c5_run.2.meshes 0).isSome = true ↔
      0 ∈ idsOfMesh (heldHandles c5_run.1)) ∧
    GlMaterial.YuvTexture 3 4 5 ∈
      ((c5_scene.update (.User .Next) c5_ctx
        c5_layouter).2.2).canvas.deleted_materials ∧
    (⟨6, 7, 0⟩ : GlMesh) ∈
      ((c5_scene.update (.User .Next) c5_ctx
        c5_layouter).2.2).canvas.deleted_meshes ∧
    GlMaterial.YuvTexture 3 4 5 ∈
      ((c5_scene.update (.User .Previous) c5_ctx
        c5_layouter).2.2).canvas.deleted_materials ∧
    (⟨6, 7, 0⟩ : GlMesh) ∈
      ((c5_scene.update (.User .Previous) c5_ctx
        c5_layouter).2.2).canvas.deleted_meshes ∧
    GlMaterial.YuvTexture 3 4 5 ∈
      ((c5_scene.update (.User .Home) c5_ctx
        c5_layouter).2.2).canvas.deleted_materials ∧
    (⟨6, 7, 0⟩ : GlMesh) ∈
      ((c5_scene.update (.User .Home) c5_ctx
        c5_layouter).2.2).canvas.deleted_meshes :=
  slideshow_frees_from_exactly_once demo_canvas ⟨2, 2, []⟩ [0] [] c5_ctx
    [.Enter, .TimeTick] ⟨[0], [], 0, 0, .Idle⟩ 0 0 rfl rfl rfl c5_scene
    c5_layouter c5_from c5_to 40 0 0 (.YuvTexture 3 4 5) ⟨6, 7, 0⟩ c5_ctx
    rfl rfl rfl rfl rfl

end HomeRs
